import Mathlib

/-!
Shallow embedding of the `escalate-contract` Rust smart contract
(`src/lib.rs`, `src/elements.rs`, `src/user.rs`, `src/offer.rs`).

Modelling conventions:
* Rust `f64` amounts/balances are modelled as `ℚ` (all amounts the contract
  manipulates are produced by `+`, `-` and `floor`).
* `WeilMap<String, V>` is modelled as an association list with first-match
  lookup and replace-in-place insertion; `WeilVec<String>` as `List String`.
* The host caller identity (`Runtime::sender()`) and the draw seed
  (`Runtime::block_height()`) are explicit arguments of each operation.
* Fallible operations return `Except String …` carrying the source's error
  messages; per the specification the storage layer is transactional, so a
  failing operation leaves the pre-call state in force (see `bid` whose body
  is additionally modelled write-by-write).
-/

namespace Escalate

/-- `Card` enum from `elements.rs`: 13 ranks plus the wildcard `JOKER`. -/
inductive Card where
  | ACE | TWO | THREE | FOUR | FIVE | SIX | SEVEN | EIGHT | NINE | TEN
  | JACK | QUEEN | KING | JOKER
deriving DecidableEq

/-- `Card::equivalent` from `elements.rs`: wildcard-aware equality. -/
def Card.equivalent (card1 card2 : Card) : Bool :=
  card1 == Card.JOKER || card2 == Card.JOKER || card1 == card2

/-- Rendering of a `Card` by Rust's `{:?}` debug formatter (variant name). -/
def Card.debugStr : Card → String
  | .ACE => "ACE" | .TWO => "TWO" | .THREE => "THREE" | .FOUR => "FOUR"
  | .FIVE => "FIVE" | .SIX => "SIX" | .SEVEN => "SEVEN" | .EIGHT => "EIGHT"
  | .NINE => "NINE" | .TEN => "TEN" | .JACK => "JACK" | .QUEEN => "QUEEN"
  | .KING => "KING" | .JOKER => "JOKER"

/-- `User` struct from `elements.rs`. -/
structure User where
  user_id : String
  bio : String
  balance : ℚ
  cards : List Card
deriving DecidableEq

/-- `User::new` from `user.rs`: initial balance 100.0, empty inventory. -/
def User.new (user_id : String) (bio : String) : User :=
  { user_id := user_id, bio := bio, balance := 100, cards := [] }

/-- `Stake` struct from `elements.rs`. -/
structure Stake where
  user_id : String
  cards : List Card
deriving DecidableEq

/-- `Hand` struct from `elements.rs`. -/
structure Hand where
  hand_id : String
  creator : String
  claimed_card : Card
  is_resolved : Bool
  stakes : List Stake
deriving DecidableEq

/-- `Offer` struct from `elements.rs`. -/
structure Offer where
  offer_id : String
  creator_id : String
  cards : List Card
  initial_price : ℚ
  current_bid : Option ℚ
  current_bidder_id : Option String
  is_resolved : Bool
deriving DecidableEq

/-- First-match lookup in an association list (`WeilMap::get`). -/
def mget {α : Type} (m : List (String × α)) (k : String) : Option α :=
  match m with
  | [] => none
  | (k1, v) :: rest => if k1 = k then some v else mget rest k

/-- Replace-in-place / append insertion (`WeilMap::insert`). -/
def mput {α : Type} (k : String) (v : α) (m : List (String × α)) :
    List (String × α) :=
  match m with
  | [] => [(k, v)]
  | (k1, v1) :: rest => if k1 = k then (k, v) :: rest else (k1, v1) :: mput k v rest

/-- `EscalateContractState` from `lib.rs`. -/
structure ContractState where
  users : List (String × User)
  user_ids : List String
  hands : List (String × Hand)
  hand_ids : List String
  offers : List (String × Offer)
  offer_ids : List String
  hand_counter : ℕ
  offer_counter : ℕ
deriving DecidableEq

/-- The state built by the constructor `new`. -/
def initState : ContractState :=
  { users := [], user_ids := [], hands := [], hand_ids := [],
    offers := [], offer_ids := [], hand_counter := 0, offer_counter := 0 }

/-- `EQUIVALENT_REWARD` constant from `lib.rs`. -/
def EQUIVALENT_REWARD : ℚ := 1
/-- `BLUFF_REWARD` constant from `lib.rs` (1.2). -/
def BLUFF_REWARD : ℚ := 6/5

/-- `remove_cards_from_inventory` from `lib.rs`: remove, one by one, the first
structurally equal instance of each requested card; error (carrying the
source's message) at the first card with no equal instance remaining. -/
def remove_cards_from_inventory (inventory : List Card) (cards : List Card) :
    Except String (List Card) :=
  match cards with
  | [] => .ok inventory
  | c :: rest =>
    if c ∈ inventory then
      remove_cards_from_inventory (inventory.erase c) rest
    else
      .error ("not enough " ++ c.debugStr ++ " cards to stake")

/-- The per-card reward of one stake against the claimed card
(inner loop of `reward_stakers`). -/
def stakeReward (claimed : Card) (cards : List Card) : ℚ :=
  (cards.map (fun c =>
    if Card.equivalent c claimed then EQUIVALENT_REWARD else BLUFF_REWARD)).sum

/-- One iteration of the `reward_stakers` loop: credit one stake's reward to
its staker (skipping unregistered stakers). -/
def creditStake (claimed : Card) (s : ContractState) (stake : Stake) :
    ContractState :=
  match mget s.users stake.user_id with
  | some staker =>
    let staker1 := { staker with
      balance := staker.balance + stakeReward claimed stake.cards }
    { s with users := mput stake.user_id staker1 s.users }
  | none => s

/-- `reward_stakers` from `lib.rs`: credit every stake before `upto`
(`stakes.len()` when `include_last`, else `stakes.len() - 1`). -/
def reward_stakers (s : ContractState) (stakes : List Stake)
    (include_last : Bool) (claimed : Card) : ContractState :=
  let upto := if include_last then stakes.length else stakes.length - 1
  (stakes.take upto).foldl (creditStake claimed) s

/-- `mask_hand_for_view` from `lib.rs`: keep stake count, order and staker
identities; replace every staked card by `JOKER`. -/
def mask_hand_for_view (hand : Hand) : Hand :=
  { hand with stakes := hand.stakes.map (fun s =>
      { user_id := s.user_id, cards := List.replicate s.cards.length Card.JOKER }) }

/-- The fixed 14-card deck array from `get_random_cards`. -/
def deck : List Card :=
  [.ACE, .TWO, .THREE, .FOUR, .FIVE, .SIX, .SEVEN, .EIGHT, .NINE, .TEN,
   .JACK, .QUEEN, .KING, .JOKER]

/-- `get_random_cards` from `elements.rs`: card `i` is
`deck[(seed + i) mod 2^64 mod 14]` (the seed is the `u64` block height). -/
def get_random_cards (seed : ℕ) (num : ℕ) : List Card :=
  (List.range num).map (fun i => (deck.getD ((seed + i) % 2 ^ 64 % 14) Card.JOKER))

/-- `is_bluff` from `elements.rs`. The source unwraps `stakes.last()`
(panicking on an empty stake list); the panic branch is modelled as `none`. -/
def is_bluff (hand : Hand) : Option Bool :=
  (hand.stakes.getLast?).map
    (fun last => last.cards.any (fun c => !(Card.equivalent c hand.claimed_card)))

/-- `register_user` from `lib.rs`. -/
def register_user (sender bio : String) (s : ContractState) :
    Except String (User × ContractState) :=
  match mget s.users sender with
  | some existing =>
    let existing1 := { existing with bio := bio }
    .ok (existing1, { s with users := mput sender existing1 s.users })
  | none =>
    let user := User.new sender bio
    .ok (user, { s with users := mput sender user s.users,
                        user_ids := s.user_ids ++ [sender] })

/-- `get_users` from `lib.rs`. -/
def get_users (s : ContractState) : List User :=
  s.user_ids.filterMap (fun id => mget s.users id)

/-- `get_user` from `lib.rs`. -/
def get_user (id : String) (s : ContractState) : Option User :=
  mget s.users id

/-- `get_my_cards` from `lib.rs`. -/
def get_my_cards (sender : String) (s : ContractState) :
    Except String (List Card) :=
  match mget s.users sender with
  | some u => .ok u.cards
  | none => .error "user not registered"

/-- `start_hand` from `lib.rs`. -/
def start_hand (sender : String) (claim : Card) (cards : List Card)
    (s : ContractState) : Except String (Hand × ContractState) :=
  match mget s.users sender with
  | none => .error "user must register before starting a hand"
  | some user =>
    match remove_cards_from_inventory user.cards cards with
    | .error e => .error e
    | .ok inv =>
      let counter1 := s.hand_counter + 1
      let hand_id := Nat.repr counter1
      let hand : Hand :=
        { hand_id := hand_id, creator := sender, claimed_card := claim,
          is_resolved := false, stakes := [{ user_id := sender, cards := cards }] }
      let user1 := { user with cards := inv }
      .ok (hand,
        { s with users := mput sender user1 s.users,
                 hands := mput hand_id hand s.hands,
                 hand_ids := s.hand_ids ++ [hand_id],
                 hand_counter := counter1 })

/-- `get_hands` from `lib.rs`: masked listing in `hand_ids` order. -/
def get_hands (s : ContractState) : List Hand :=
  s.hand_ids.filterMap (fun id => (mget s.hands id).map mask_hand_for_view)

/-- `get_hand` from `lib.rs`: masked lookup. -/
def get_hand (id : String) (s : ContractState) : Option Hand :=
  (mget s.hands id).map mask_hand_for_view

/-- `buy_cards` from `lib.rs`. `spend as u32` is the Rust saturating float
cast, so the card count is `min ⌊amount⌋ (2^32 - 1)`. -/
def buy_cards (sender : String) (amount : ℚ) (seed : ℕ) (s : ContractState) :
    Except String (List Card × ContractState) :=
  match mget s.users sender with
  | none => .error "user must register before buying cards"
  | some user =>
    let spend : ℤ := ⌊amount⌋
    if spend ≤ 0 then .ok ([], s)
    else if user.balance < (spend : ℚ) then .error "insufficient balance"
    else
      let count : ℕ := min spend.toNat (2 ^ 32 - 1)
      let new_cards := get_random_cards seed count
      let user1 := { user with balance := user.balance - (spend : ℚ),
                               cards := user.cards ++ new_cards }
      .ok (new_cards, { s with users := mput sender user1 s.users })

/-- `stake` from `lib.rs`. -/
def stake (sender hand_id : String) (cards : List Card) (s : ContractState) :
    Except String (Hand × ContractState) :=
  match mget s.users sender with
  | none => .error "user must register before staking"
  | some user =>
    match mget s.hands hand_id with
    | none => .error "hand not found for staking"
    | some hand =>
      if hand.is_resolved then .error "cannot stake on a resolved hand"
      else
        match remove_cards_from_inventory user.cards cards with
        | .error e => .error e
        | .ok inv =>
          let hand1 := { hand with
            stakes := hand.stakes ++ [{ user_id := sender, cards := cards }] }
          let user1 := { user with cards := inv }
          .ok (hand1, { s with users := mput sender user1 s.users,
                               hands := mput hand_id hand1 s.hands })

/-- `check` from `lib.rs`. Note the source order: the checker's record is
loaded first, `reward_stakers` updates the users map, and the (stale) checker
record is inserted last, after the reward credits. -/
def check (sender hand_id : String) (s : ContractState) :
    Except String (Bool × ContractState) :=
  match mget s.users sender with
  | none => .error "user must register before checking"
  | some checker =>
    match mget s.hands hand_id with
    | none => .error "hand not found for check"
    | some hand =>
      if hand.is_resolved then .error "hand already resolved"
      else
        match hand.stakes.getLast? with
        | none => .error "no stakes to check"
        | some last =>
          let lastLen : ℚ := last.cards.length
          let bluff := (is_bluff hand).getD true
          let s1 := reward_stakers s hand.stakes (!bluff) hand.claimed_card
          let checker1 := { checker with
            balance := if bluff then checker.balance + lastLen
                       else checker.balance - lastLen }
          let hand1 := { hand with is_resolved := true }
          .ok (bluff, { s1 with users := mput sender checker1 s1.users,
                                hands := mput hand_id hand1 s1.hands })

/-- `offer` from `lib.rs`. -/
def offer (sender : String) (cards : List Card) (amount : ℚ)
    (s : ContractState) : Except String (Offer × ContractState) :=
  match mget s.users sender with
  | none => .error "user must register before offering cards"
  | some user =>
    match remove_cards_from_inventory user.cards cards with
    | .error e => .error e
    | .ok inv =>
      let counter1 := s.offer_counter + 1
      let offer_id := Nat.repr counter1
      let o : Offer :=
        { offer_id := offer_id, creator_id := sender, cards := cards,
          initial_price := amount, current_bid := none,
          current_bidder_id := none, is_resolved := false }
      let user1 := { user with cards := inv }
      .ok (o, { s with users := mput sender user1 s.users,
                       offers := mput offer_id o s.offers,
                       offer_ids := s.offer_ids ++ [offer_id],
                       offer_counter := counter1 })

/-- `get_offers` from `lib.rs`. -/
def get_offers (s : ContractState) : List Offer :=
  s.offer_ids.filterMap (fun id => mget s.offers id)

/-- Literal translation of the body of `bid` from `lib.rs`: state is threaded
write-by-write, so the error outcome carries every write persisted before the
early return (in particular the previous bidder's refund, which the source
performs before the balance check). -/
def bidBody (sender offer_id : String) (amt : ℚ) (s : ContractState) :
    Except String Unit × ContractState :=
  match mget s.users sender with
  | none => (.error "user must register before bidding", s)
  | some bidder =>
    match mget s.offers offer_id with
    | none => (.error "offer not found", s)
    | some o =>
      if o.is_resolved then (.error "cannot bid on resolved offer", s)
      else if o.creator_id = sender then
        (.error "creator cannot bid on own offer", s)
      else
        let min_bid := o.current_bid.getD o.initial_price
        if amt ≤ min_bid then
          (.error "bid must be higher than current bid or initial price", s)
        else
          let refunded : User × ContractState :=
            match o.current_bid, o.current_bidder_id with
            | some prevAmt, some prevId =>
              if prevId = sender then
                ({ bidder with balance := bidder.balance + prevAmt }, s)
              else
                match mget s.users prevId with
                | some prev =>
                  let prev1 := { prev with balance := prev.balance + prevAmt }
                  (bidder, { s with users := mput prevId prev1 s.users })
                | none => (bidder, s)
            | _, _ => (bidder, s)
          let bidder1 := refunded.1
          let s1 := refunded.2
          if bidder1.balance < amt then
            (.error "insufficient balance for bid", s1)
          else
            let bidder2 := { bidder1 with balance := bidder1.balance - amt }
            let o1 := { o with current_bid := some amt,
                               current_bidder_id := some sender }
            (.ok (), { s1 with users := mput sender bidder2 s1.users,
                               offers := mput offer_id o1 s1.offers })

/-- Modelled from the spec: the storage primitives (`WeilMap`/`WeilVec`,
outside this repository) are transactional — writes persist only when the
operation returns successfully and are discarded on failure (spec sections 1
and 5). `bid` is therefore the body's result with the failure state dropped. -/
def bid (sender offer_id : String) (amt : ℚ) (s : ContractState) :
    Except String ContractState :=
  match bidBody sender offer_id amt s with
  | (.ok _, s1) => .ok s1
  | (.error e, _) => .error e

/-- `resolve` from `lib.rs`. -/
def resolve (sender offer_id : String) (s : ContractState) :
    Except String ContractState :=
  match mget s.offers offer_id with
  | none => .error "offer not found"
  | some o =>
    if o.creator_id ≠ sender then .error "only creator can resolve offer"
    else if o.is_resolved then .ok s
    else
      match o.current_bid, o.current_bidder_id with
      | some bid_amount, some bidder_id =>
        match mget s.users bidder_id with
        | none => .error "bidder not registered anymore"
        | some bidder =>
          match mget s.users sender with
          | none => .error "creator not registered anymore"
          | some creator =>
            let creator1 := { creator with balance := creator.balance + bid_amount }
            let bidder1 := { bidder with cards := bidder.cards ++ o.cards }
            let o1 := { o with is_resolved := true }
            let users1 := mput sender creator1 (mput bidder_id bidder1 s.users)
            .ok { s with users := users1, offers := mput offer_id o1 s.offers }
      | _, _ =>
        let users1 :=
          match mget s.users sender with
          | some creator =>
            mput sender { creator with cards := creator.cards ++ o.cards } s.users
          | none => s.users
        let o1 := { o with is_resolved := true }
        .ok { s with users := users1, offers := mput offer_id o1 s.offers }

/-- `withdraw_bid` from `lib.rs`. The source checks only that the caller is
the current bidder — it does not test `is_resolved`. -/
def withdraw_bid (sender offer_id : String) (s : ContractState) :
    Except String ContractState :=
  match mget s.offers offer_id with
  | none => .error "offer not found"
  | some o =>
    if o.current_bidder_id ≠ some sender then
      .error "only current bidder can withdraw bid"
    else
      let users1 :=
        match o.current_bid with
        | some amount =>
          match mget s.users sender with
          | some bidder =>
            mput sender { bidder with balance := bidder.balance + amount } s.users
          | none => s.users
        | none => s.users
      let o1 := { o with current_bid := none, current_bidder_id := none }
      .ok { s with users := users1, offers := mput offer_id o1 s.offers }

/-- `deposit` from `lib.rs`. -/
def deposit (sender : String) (amount : ℚ) (s : ContractState) :
    Except String ContractState :=
  let user := (mget s.users sender).getD (User.new sender "")
  if amount ≤ 0 then .error "deposit amount must be positive"
  else
    let user1 := { user with balance := user.balance + amount }
    let user_ids1 :=
      if (mget s.users sender).isNone then s.user_ids ++ [sender] else s.user_ids
    .ok { s with users := mput sender user1 s.users, user_ids := user_ids1 }

/-- The mutating operations of the contract, with the host-supplied caller
identity (and, for `buy_cards`, the block-height seed) as explicit data. -/
inductive Op where
  | registerUser (sender bio : String)
  | startHand (sender : String) (claim : Card) (cards : List Card)
  | buyCards (sender : String) (amount : ℚ) (seed : ℕ)
  | stakeOp (sender hand_id : String) (cards : List Card)
  | checkOp (sender hand_id : String)
  | offerOp (sender : String) (cards : List Card) (amount : ℚ)
  | bidOp (sender offer_id : String) (amount : ℚ)
  | resolveOp (sender offer_id : String)
  | withdrawBid (sender offer_id : String)
  | depositOp (sender : String) (amount : ℚ)

/-- Apply one operation: a successful call persists its writes, a failing
call leaves the state unchanged (transactional storage, spec sections 1/5). -/
def applyOp (s : ContractState) (op : Op) : ContractState :=
  match op with
  | .registerUser sender bio =>
    match register_user sender bio s with | .ok (_, s1) => s1 | .error _ => s
  | .startHand sender claim cards =>
    match start_hand sender claim cards s with | .ok (_, s1) => s1 | .error _ => s
  | .buyCards sender amount seed =>
    match buy_cards sender amount seed s with | .ok (_, s1) => s1 | .error _ => s
  | .stakeOp sender hand_id cards =>
    match stake sender hand_id cards s with | .ok (_, s1) => s1 | .error _ => s
  | .checkOp sender hand_id =>
    match check sender hand_id s with | .ok (_, s1) => s1 | .error _ => s
  | .offerOp sender cards amount =>
    match offer sender cards amount s with | .ok (_, s1) => s1 | .error _ => s
  | .bidOp sender offer_id amount =>
    match bid sender offer_id amount s with | .ok s1 => s1 | .error _ => s
  | .resolveOp sender offer_id =>
    match resolve sender offer_id s with | .ok s1 => s1 | .error _ => s
  | .withdrawBid sender offer_id =>
    match withdraw_bid sender offer_id s with | .ok s1 => s1 | .error _ => s
  | .depositOp sender amount =>
    match deposit sender amount s with | .ok s1 => s1 | .error _ => s

/-- Run a sequence of operations from a starting state. -/
def runOps (s : ContractState) (ops : List Op) : ContractState :=
  ops.foldl applyOp s

/-- Sum of `f` over the values of an association list. -/
def mapSum {α : Type} (f : α → ℕ) (m : List (String × α)) : ℕ :=
  (m.map (fun p => f p.2)).sum

/-- Number of cards in a user's inventory. -/
def userCardCount (u : User) : ℕ := u.cards.length

/-- Number of cards staked on a hand (all stakes). -/
def handCards (h : Hand) : ℕ := (h.stakes.map (fun st => st.cards.length)).sum

/-- Cards a hand holds in escrow while unresolved. -/
def openHandCards (h : Hand) : ℕ := if h.is_resolved then 0 else handCards h

/-- Cards an offer holds in escrow while unresolved. -/
def openOfferCards (o : Offer) : ℕ := if o.is_resolved then 0 else o.cards.length

/-- Total card count across user inventories, unresolved hand stakes and
unresolved offer escrows. -/
def totalCards (s : ContractState) : ℕ :=
  mapSum userCardCount s.users + mapSum openHandCards s.hands
    + mapSum openOfferCards s.offers

/-- The total reward a given user collects from a list of credited stakes. -/
def creditedSum (uid : String) (credited : List Stake) (claimed : Card) : ℚ :=
  ((credited.filter (fun st => st.user_id = uid)).map
    (fun st => stakeReward claimed st.cards)).sum

/-- Whether an operation is a `buy_cards` call. -/
def Op.isBuyCards : Op → Bool
  | .buyCards _ _ _ => true
  | _ => false

/-- Whether an operation is a `check` call. -/
def Op.isCheck : Op → Bool
  | .checkOp _ _ => true
  | _ => false

/-- Structural invariants of reachable states: hand/offer keys are decimal
renderings of counter values already allocated, offer creators are registered
users, no offer's current bidder is its creator, and every stored hand has at
least one stake. -/
def GoodState (s : ContractState) : Prop :=
  (∀ k h, mget s.hands k = some h → ∃ n, n ≤ s.hand_counter ∧ k = Nat.repr n)
  ∧ (∀ k o, mget s.offers k = some o →
      ∃ n, n ≤ s.offer_counter ∧ k = Nat.repr n)
  ∧ (∀ k o, mget s.offers k = some o →
      (mget s.users o.creator_id).isSome = true)
  ∧ (∀ k o, mget s.offers k = some o →
      o.current_bidder_id ≠ some o.creator_id)
  ∧ (∀ k h, mget s.hands k = some h → h.stakes ≠ [])

/-- The bidder's balance at the moment `bid` performs its balance check:
the caller's balance plus their own refunded previous bid, if any. -/
def effectiveBidBalance (bidder : User) (o : Offer) (sender : String) : ℚ :=
  bidder.balance +
    (match o.current_bid, o.current_bidder_id with
     | some prevAmt, some prevId => if prevId = sender then prevAmt else 0
     | _, _ => 0)

/-- The exact failure condition of `bid`, read off the source's guards. -/
def bidErrorCond (sender offer_id : String) (amt : ℚ) (s : ContractState) :
    Prop :=
  match mget s.users sender, mget s.offers offer_id with
  | none, _ => True
  | some _, none => True
  | some bidder, some o =>
    o.is_resolved = true ∨ o.creator_id = sender
      ∨ amt ≤ o.current_bid.getD o.initial_price
      ∨ effectiveBidBalance bidder o sender < amt

/-- Concrete state for the `check` settlement counterexample: one registered
user `A` (balance 100, empty inventory) and one open hand `h` created by `A`
with claim `ACE` and a single one-card stake `[ACE]` by `A`. -/
def c1State : ContractState :=
  { initState with
    users := [("A", { user_id := "A", bio := "", balance := 100, cards := [] })],
    user_ids := ["A"],
    hands := [("h", { hand_id := "h", creator := "A", claimed_card := .ACE,
                      is_resolved := false,
                      stakes := [{ user_id := "A", cards := [.ACE] }] })],
    hand_ids := ["h"] }

/-- Operation sequence for the card-conservation counterexample: `A`
registers, buys one card (seed 0 draws `ACE`), stakes it on a new hand, and
checks that hand. -/
def c2Ops : List Op :=
  [.registerUser "A" "", .buyCards "A" 1 0, .startHand "A" .ACE [.ACE],
   .checkOp "A" "1"]

/-- Operation sequence reaching a resolved offer that still records a bid:
`A` offers an empty card list at price 10, `B` bids 15, `A` resolves. -/
def c3Ops : List Op :=
  [.registerUser "A" "", .registerUser "B" "", .offerOp "A" [] 10,
   .bidOp "B" "1" 15, .resolveOp "A" "1"]

/-- Concrete state for the `bid` failure-atomicity witness: `A` has an open
offer at price 5 with standing bid 10 by `B` (balance 90); `C` is registered
with balance 100. -/
def c4State : ContractState :=
  runOps initState
    [.registerUser "A" "", .registerUser "B" "", .registerUser "C" "",
     .offerOp "A" [] 5, .bidOp "B" "1" 10]

/-- Concrete state for the `resolve` idempotence witness: `A` has offered an
empty card list at price 10. -/
def c6State : ContractState :=
  runOps initState [.registerUser "A" "", .offerOp "A" [] 10]

/-- Concrete state for the `buy_cards` saturation counterexample: user `A`
with balance `2^32`. -/
def c7State : ContractState :=
  { initState with
    users := [("A", { user_id := "A", bio := "", balance := 4294967296,
                      cards := [] })],
    user_ids := ["A"] }

/-- The hand stored under id "1" after `A` buys one card (`ACE`) and stakes
it on a new hand with claim `ACE`. -/
def c9Hand : Hand :=
  { hand_id := "1", creator := "A", claimed_card := .ACE, is_resolved := false,
    stakes := [{ user_id := "A", cards := [.ACE] }] }

theorem mget_mput_self {α : Type} (k : String) (v : α) (m : List (String × α)) :
    mget (mput k v m) k = some v := by
  induction m with
  | nil => simp [mget, mput]
  | cons p rest ih =>
    obtain ⟨k1, v1⟩ := p
    by_cases h : k1 = k
    · simp [mget, mput, h]
    · simp [mget, mput, h, ih]

theorem mget_mput_ne {α : Type} {k k1 : String} (v : α) (m : List (String × α))
    (h : k1 ≠ k) : mget (mput k v m) k1 = mget m k1 := by
  induction m with
  | nil => simp [mget, mput, Ne.symm h]
  | cons p rest ih =>
    obtain ⟨k2, v2⟩ := p
    by_cases h2 : k2 = k
    · subst h2
      simp [mget, mput, Ne.symm h]
    · simp [mget, mput, h2, ih]

theorem isSome_mget_mput {α : Type} {k1 : String} (k : String) (v : α)
    {m : List (String × α)} (h : (mget m k1).isSome = true) :
    (mget (mput k v m) k1).isSome = true := by
  by_cases hk : k1 = k
  · subst hk; simp [mget_mput_self]
  · rwa [mget_mput_ne v m hk]

theorem mapSum_cons {α : Type} (f : α → ℕ) (k : String) (v : α)
    (m : List (String × α)) :
    mapSum f ((k, v) :: m) = f v + mapSum f m := by
  simp [mapSum]

theorem mapSum_mput_none {α : Type} {f : α → ℕ} {k : String} {v : α}
    {m : List (String × α)} (h : mget m k = none) :
    mapSum f (mput k v m) = mapSum f m + f v := by
  induction m with
  | nil => simp [mapSum, mput]
  | cons p rest ih =>
    obtain ⟨k1, v1⟩ := p
    by_cases hk : k1 = k
    · simp [mget, hk] at h
    · simp only [mget, hk, if_false] at h
      simp only [mput, hk, if_false, mapSum_cons, ih h]
      omega

theorem mapSum_mput_some {α : Type} {f : α → ℕ} {k : String} {v v0 : α}
    {m : List (String × α)} (h : mget m k = some v0) :
    mapSum f (mput k v m) + f v0 = mapSum f m + f v := by
  induction m with
  | nil => simp [mget] at h
  | cons p rest ih =>
    obtain ⟨k1, v1⟩ := p
    by_cases hk : k1 = k
    · simp only [mget, hk, if_true] at h
      cases h
      simp only [mput, hk, if_true, mapSum_cons]
      omega
    · simp only [mget, hk, if_false] at h
      simp only [mput, hk, if_false, mapSum_cons]
      have := @ih h
      omega

theorem digitChar_injOn :
    ∀ a, a < 10 → ∀ b, b < 10 → Nat.digitChar a = Nat.digitChar b → a = b := by
  decide

theorem map_digitChar_inj :
    ∀ l1 l2 : List ℕ, (∀ d ∈ l1, d < 10) → (∀ d ∈ l2, d < 10) →
      l1.map Nat.digitChar = l2.map Nat.digitChar → l1 = l2 := by
  intro l1
  induction l1 with
  | nil => intro l2 _ _ h; cases l2 <;> simp_all
  | cons a t ih =>
    intro l2 h1 h2 h
    cases l2 with
    | nil => simp at h
    | cons b t2 =>
      simp only [List.map_cons, List.cons.injEq] at h
      have ha : a = b := by
        refine digitChar_injOn a ?_ b ?_ h.1
        · exact h1 a (by simp)
        · exact h2 b (by simp)
      subst ha
      have ht : t = t2 := by
        refine ih t2 (fun d hd => h1 d (by simp [hd])) (fun d hd => h2 d (by simp [hd])) h.2
      simp [ht]

theorem toDigitsCore_eq_digits :
    ∀ fuel n ds, 0 < n → n < fuel →
      Nat.toDigitsCore 10 fuel n ds
        = ((Nat.digits 10 n).map Nat.digitChar).reverse ++ ds := by
  intro fuel
  induction fuel with
  | zero => intro n ds _ h; omega
  | succ f ih =>
    intro n ds hn hf
    have hdig : Nat.digits 10 n = n % 10 :: Nat.digits 10 (n / 10) :=
      Nat.digits_def' (by norm_num) hn
    by_cases h0 : n / 10 = 0
    · simp [Nat.toDigitsCore, h0, hdig]
    · have hpos : 0 < n / 10 := Nat.pos_of_ne_zero h0
      have hlt : n / 10 < f := by
        have := Nat.div_lt_self hn (by norm_num : 1 < 10)
        omega
      simp only [Nat.toDigitsCore, h0, if_false]
      rw [ih (n / 10) _ hpos hlt, hdig]
      simp

theorem repr_eq_digits (n : ℕ) (hn : 0 < n) :
    Nat.repr n = (((Nat.digits 10 n).map Nat.digitChar).reverse).asString := by
  show (Nat.toDigits 10 n).asString = _
  unfold Nat.toDigits
  rw [toDigitsCore_eq_digits (n + 1) n [] hn (by omega)]
  simp

theorem asString_inj {l1 l2 : List Char} (h : l1.asString = l2.asString) :
    l1 = l2 := by
  have := congrArg String.data h
  simpa using this

theorem repr_ne_zero_repr (n : ℕ) (hn : 0 < n) : Nat.repr n ≠ Nat.repr 0 := by
  intro h
  rw [repr_eq_digits n hn] at h
  have h0 : Nat.repr 0 = (['0'] : List Char).asString := rfl
  rw [h0] at h
  have hl := asString_inj h
  have hlen : ((Nat.digits 10 n).map Nat.digitChar).reverse.length = 1 := by
    rw [hl]; rfl
  simp only [List.length_reverse, List.length_map] at hlen
  obtain ⟨d, hd⟩ : ∃ d, Nat.digits 10 n = [d] := by
    cases hdig : Nat.digits 10 n with
    | nil => simp [hdig] at hlen
    | cons a t =>
      cases t with
      | nil => exact ⟨a, rfl⟩
      | cons b t2 => simp [hdig] at hlen
  have hdlt : d < 10 :=
    Nat.digits_lt_base (by norm_num) (by rw [hd]; simp)
  have hchar : Nat.digitChar d = '0' := by
    rw [hd] at hl
    simpa using hl
  have hd0 : d = 0 :=
    digitChar_injOn d hdlt 0 (by norm_num) (by simpa using hchar)
  have := Nat.ofDigits_digits 10 n
  rw [hd, hd0] at this
  simp [Nat.ofDigits] at this
  omega

theorem repr_injective : ∀ {m n : ℕ}, Nat.repr m = Nat.repr n → m = n := by
  intro m n h
  rcases Nat.eq_zero_or_pos m with hm | hm
  · rcases Nat.eq_zero_or_pos n with hn | hn
    · omega
    · subst hm
      exact absurd h.symm (repr_ne_zero_repr n hn)
  · rcases Nat.eq_zero_or_pos n with hn | hn
    · subst hn
      exact absurd h (repr_ne_zero_repr m hm)
    · rw [repr_eq_digits m hm, repr_eq_digits n hn] at h
      have hl := asString_inj h
      have hrev := List.reverse_injective hl
      have hdig : Nat.digits 10 m = Nat.digits 10 n := by
        refine map_digitChar_inj _ _ ?_ ?_ hrev
        · exact fun d hd => Nat.digits_lt_base (by norm_num) hd
        · exact fun d hd => Nat.digits_lt_base (by norm_num) hd
      have h1 := Nat.ofDigits_digits 10 m
      have h2 := Nat.ofDigits_digits 10 n
      rw [← h1, ← h2, hdig]

theorem mget_repr_fresh {α : Type} {M : List (String × α)} {c : ℕ}
    (hinv : ∀ k v, mget M k = some v → ∃ n, n ≤ c ∧ k = Nat.repr n) :
    mget M (Nat.repr (c + 1)) = none := by
  cases hM : mget M (Nat.repr (c + 1)) with
  | none => rfl
  | some v =>
    obtain ⟨n, hn, hk⟩ := hinv _ _ hM
    have := repr_injective hk.symm
    omega

theorem remove_ok_count :
    ∀ (cards inv inv2 : List Card),
      remove_cards_from_inventory inv cards = .ok inv2 →
      ∀ x, inv2.count x + cards.count x = inv.count x := by
  intro cards
  induction cards with
  | nil =>
    intro inv inv2 h x
    simp only [remove_cards_from_inventory, Except.ok.injEq] at h
    subst h
    simp
  | cons c rest ih =>
    intro inv inv2 h x
    by_cases hc : c ∈ inv
    · simp only [remove_cards_from_inventory, hc, if_true] at h
      have hcount := ih (inv.erase c) inv2 h x
      have hpos : 0 < inv.count c := List.count_pos_iff.mpr hc
      by_cases hx : x = c
      · subst hx
        have he : (inv.erase x).count x = inv.count x - 1 :=
          List.count_erase_self x inv
        simp only [List.count_cons_self]
        omega
      · have he : (inv.erase c).count x = inv.count x :=
          List.count_erase_of_ne hx inv
        rw [List.count_cons_of_ne hx]
        omega
    · simp [remove_cards_from_inventory, hc] at h

theorem remove_ok_of_le :
    ∀ (cards inv : List Card),
      (∀ x, cards.count x ≤ inv.count x) →
      ∃ inv2, remove_cards_from_inventory inv cards = .ok inv2 := by
  intro cards
  induction cards with
  | nil => intro inv _; exact ⟨inv, rfl⟩
  | cons c rest ih =>
    intro inv hle
    have hc : c ∈ inv := by
      have := hle c
      simp only [List.count_cons_self] at this
      exact List.count_pos_iff.mp (by omega)
    have hle2 : ∀ x, rest.count x ≤ (inv.erase c).count x := by
      intro x
      by_cases hx : x = c
      · subst hx
        have := hle x
        have he : (inv.erase x).count x = inv.count x - 1 :=
          List.count_erase_self x inv
        simp only [List.count_cons_self] at this
        omega
      · have := hle x
        have he : (inv.erase c).count x = inv.count x :=
          List.count_erase_of_ne hx inv
        rw [List.count_cons_of_ne hx] at this
        omega
    obtain ⟨inv2, h2⟩ := ih (inv.erase c) hle2
    exact ⟨inv2, by simp [remove_cards_from_inventory, hc, h2]⟩

theorem remove_error_first :
    ∀ (cards inv : List Card) (e : String),
      remove_cards_from_inventory inv cards = .error e →
      ∃ pre c post inv1, cards = pre ++ c :: post
        ∧ e = "not enough " ++ c.debugStr ++ " cards to stake"
        ∧ remove_cards_from_inventory inv pre = .ok inv1 ∧ c ∉ inv1 := by
  intro cards
  induction cards with
  | nil => intro inv e h; simp [remove_cards_from_inventory] at h
  | cons c rest ih =>
    intro inv e h
    by_cases hc : c ∈ inv
    · simp only [remove_cards_from_inventory, hc, if_true] at h
      obtain ⟨pre, c1, post, inv1, h1, h2, h3, h4⟩ := ih (inv.erase c) e h
      refine ⟨c :: pre, c1, post, inv1, by simp [h1], h2, ?_, h4⟩
      simp [remove_cards_from_inventory, hc, h3]
    · simp only [remove_cards_from_inventory, hc, if_false, Except.error.injEq] at h
      exact ⟨[], c, rest, inv, rfl, h.symm, rfl, hc⟩

theorem remove_ok_length {cards inv inv2 : List Card}
    (h : remove_cards_from_inventory inv cards = .ok inv2) :
    inv2.length + cards.length = inv.length := by
  have hcount := remove_ok_count cards inv inv2 h
  have h1 : (inv2 : Multiset Card) + (cards : Multiset Card)
      = (inv : Multiset Card) := by
    refine Multiset.ext.mpr (fun a => ?_)
    have := hcount a
    simp only [Multiset.count_add, Multiset.coe_count]
    omega
  have := congrArg Multiset.card h1
  simpa using this

theorem creditedSum_cons (uid : String) (st : Stake) (L : List Stake)
    (claimed : Card) :
    creditedSum uid (st :: L) claimed
      = (if st.user_id = uid then stakeReward claimed st.cards else 0)
          + creditedSum uid L claimed := by
  by_cases h : st.user_id = uid
  · simp [creditedSum, List.filter_cons, h]
  · simp [creditedSum, List.filter_cons, h]

theorem credit_fold_shape :
    ∀ (L : List Stake) (claimed : Card) (s : ContractState),
      (L.foldl (creditStake claimed) s).hands = s.hands
      ∧ (L.foldl (creditStake claimed) s).offers = s.offers
      ∧ (L.foldl (creditStake claimed) s).user_ids = s.user_ids
      ∧ (L.foldl (creditStake claimed) s).hand_ids = s.hand_ids
      ∧ (L.foldl (creditStake claimed) s).offer_ids = s.offer_ids
      ∧ (L.foldl (creditStake claimed) s).hand_counter = s.hand_counter
      ∧ (L.foldl (creditStake claimed) s).offer_counter = s.offer_counter := by
  intro L
  induction L with
  | nil => intro claimed s; simp
  | cons st rest ih =>
    intro claimed s
    have hstep : (creditStake claimed s st).hands = s.hands
        ∧ (creditStake claimed s st).offers = s.offers
        ∧ (creditStake claimed s st).user_ids = s.user_ids
        ∧ (creditStake claimed s st).hand_ids = s.hand_ids
        ∧ (creditStake claimed s st).offer_ids = s.offer_ids
        ∧ (creditStake claimed s st).hand_counter = s.hand_counter
        ∧ (creditStake claimed s st).offer_counter = s.offer_counter := by
      unfold creditStake
      cases mget s.users st.user_id <;> simp
    have hrest := ih claimed (creditStake claimed s st)
    simp only [List.foldl_cons]
    exact ⟨hrest.1.trans hstep.1, (hrest.2.1).trans hstep.2.1,
      (hrest.2.2.1).trans hstep.2.2.1, (hrest.2.2.2.1).trans hstep.2.2.2.1,
      (hrest.2.2.2.2.1).trans hstep.2.2.2.2.1,
      (hrest.2.2.2.2.2.1).trans hstep.2.2.2.2.2.1,
      (hrest.2.2.2.2.2.2).trans hstep.2.2.2.2.2.2⟩

theorem credit_fold_users :
    ∀ (L : List Stake) (claimed : Card) (s : ContractState) (uid : String),
      mget (L.foldl (creditStake claimed) s).users uid
        = (mget s.users uid).map
            (fun u => { u with balance := u.balance + creditedSum uid L claimed }) := by
  intro L
  induction L with
  | nil =>
    intro claimed s uid
    simp only [List.foldl_nil]
    cases h : mget s.users uid with
    | none => simp
    | some u => simp [creditedSum]
  | cons st rest ih =>
    intro claimed s uid
    simp only [List.foldl_cons]
    rw [ih, creditedSum_cons]
    unfold creditStake
    cases hs : mget s.users st.user_id with
    | none =>
      simp only [hs]
      by_cases huid : st.user_id = uid
      · subst huid; rw [hs]; simp
      · simp [huid]
    | some staker =>
      simp only [hs]
      by_cases huid : st.user_id = uid
      · subst huid
        rw [mget_mput_self, hs]
        simp [add_assoc]
      · rw [mget_mput_ne _ _ (fun h => huid h.symm)]
        simp [huid]

theorem credit_fold_userCards :
    ∀ (L : List Stake) (claimed : Card) (s : ContractState),
      mapSum userCardCount (L.foldl (creditStake claimed) s).users
        = mapSum userCardCount s.users := by
  intro L
  induction L with
  | nil => intro claimed s; simp
  | cons st rest ih =>
    intro claimed s
    simp only [List.foldl_cons]
    rw [ih]
    unfold creditStake
    cases hs : mget s.users st.user_id with
    | none => simp
    | some staker =>
      simp only [hs]
      have := mapSum_mput_some (f := userCardCount)
        (v := { staker with balance := staker.balance
                  + stakeReward claimed st.cards }) hs
      simp only [userCardCount] at this ⊢
      omega

theorem get_random_cards_length (seed n : ℕ) :
    (get_random_cards seed n).length = n := by
  simp [get_random_cards]

-- Claim theorems

/-- C5: `remove_cards_from_inventory` succeeds iff the requested cards form a
sub-multiset of the inventory under structural equality (so the wildcard
relation plays no role); on success the inventory becomes the exact multiset
difference; and a failure carries the insufficient-cards message of the first
requested card with no structurally equal instance remaining after the
preceding removals. -/
theorem remove_exact_correct (inv cards : List Card) :
    ((∃ inv2, remove_cards_from_inventory inv cards = .ok inv2)
        ↔ (cards : Multiset Card) ≤ (inv : Multiset Card))
    ∧ (∀ inv2, remove_cards_from_inventory inv cards = .ok inv2 →
        (inv2 : Multiset Card) = (inv : Multiset Card) - (cards : Multiset Card))
    ∧ (∀ e, remove_cards_from_inventory inv cards = .error e →
        ∃ pre c post inv1, cards = pre ++ c :: post
          ∧ e = "not enough " ++ c.debugStr ++ " cards to stake"
          ∧ remove_cards_from_inventory inv pre = .ok inv1 ∧ c ∉ inv1) := by
  refine ⟨⟨?_, ?_⟩, ?_, ?_⟩
  · rintro ⟨inv2, h⟩
    refine Multiset.le_iff_count.mpr (fun a => ?_)
    have := remove_ok_count cards inv inv2 h a
    simp only [Multiset.coe_count]
    omega
  · intro h
    exact remove_ok_of_le cards inv (fun x => by
      have := Multiset.le_iff_count.mp h x
      simpa [Multiset.coe_count] using this)
  · intro inv2 h
    refine Multiset.ext.mpr (fun a => ?_)
    have := remove_ok_count cards inv inv2 h a
    simp only [Multiset.count_sub, Multiset.coe_count]
    omega
  · intro e h
    exact remove_error_first cards inv e h

/-- Witness for C5: removing `[KING]` from `[JOKER, KING]` leaves exactly
`[JOKER]` as a multiset (the JOKER does not substitute for the KING). -/
theorem remove_exact_correct_witness :
    remove_cards_from_inventory [Card.JOKER, Card.KING] [Card.KING]
        = .ok [Card.JOKER]
    ∧ (([Card.JOKER] : List Card) : Multiset Card)
        = (([Card.JOKER, Card.KING] : List Card) : Multiset Card)
            - (([Card.KING] : List Card) : Multiset Card) :=
  ⟨rfl,
   (remove_exact_correct [Card.JOKER, Card.KING] [Card.KING]).2.1
     [Card.JOKER] rfl⟩

/-- C8: `get_hand` (and each element of `get_hands`) returns the stored hand
masked: identical `hand_id`, `creator`, `claimed_card`, `is_resolved`, the
same number of stakes in the same order, each with the same staker identity
and card count, and every masked card equal to `JOKER`. -/
theorem hand_views_masked :
    (∀ (s : ContractState) (id : String) (hand : Hand),
      mget s.hands id = some hand →
        get_hand id s = some (mask_hand_for_view hand))
    ∧ (∀ (s : ContractState) (hv : Hand), hv ∈ get_hands s →
        ∃ id hand, mget s.hands id = some hand ∧ hv = mask_hand_for_view hand)
    ∧ (∀ hand : Hand,
        (mask_hand_for_view hand).hand_id = hand.hand_id
        ∧ (mask_hand_for_view hand).creator = hand.creator
        ∧ (mask_hand_for_view hand).claimed_card = hand.claimed_card
        ∧ (mask_hand_for_view hand).is_resolved = hand.is_resolved
        ∧ (mask_hand_for_view hand).stakes.length = hand.stakes.length
        ∧ (∀ i (h1 : i < (mask_hand_for_view hand).stakes.length)
              (h2 : i < hand.stakes.length),
            ((mask_hand_for_view hand).stakes.get ⟨i, h1⟩).user_id
                = (hand.stakes.get ⟨i, h2⟩).user_id
            ∧ ((mask_hand_for_view hand).stakes.get ⟨i, h1⟩).cards.length
                = (hand.stakes.get ⟨i, h2⟩).cards.length
            ∧ ∀ c ∈ ((mask_hand_for_view hand).stakes.get ⟨i, h1⟩).cards,
                c = Card.JOKER)) := by
  refine ⟨?_, ?_, ?_⟩
  · intro s id hand hh
    simp [get_hand, hh]
  · intro s hv hmem
    simp only [get_hands, List.mem_filterMap] at hmem
    obtain ⟨id, _, hid⟩ := hmem
    cases hh : mget s.hands id with
    | none => rw [hh] at hid; simp at hid
    | some hand =>
      rw [hh] at hid
      simp at hid
      exact ⟨id, hand, hh, hid.symm⟩
  · intro hand
    refine ⟨rfl, rfl, rfl, rfl, by simp [mask_hand_for_view], ?_⟩
    intro i h1 h2
    refine ⟨?_, ?_, ?_⟩
    · simp [mask_hand_for_view]
    · simp [mask_hand_for_view]
    · intro c hc
      simp only [mask_hand_for_view, List.get_eq_getElem, List.getElem_map] at hc
      exact List.eq_of_mem_replicate hc

/-- Witness for C8: looking up the single stored hand of `c1State` yields its
masked view. -/
theorem hand_views_masked_witness :
    get_hand "h" c1State
      = some (mask_hand_for_view
          { hand_id := "h", creator := "A", claimed_card := .ACE,
            is_resolved := false,
            stakes := [{ user_id := "A", cards := [.ACE] }] }) :=
  hand_views_masked.1 c1State "h" _ (by decide)

/-- C10: a `deposit` by an unregistered caller with a positive amount
auto-registers the caller with balance `100 + amount`, empty bio and empty
inventory, and appends the caller to the user id list exactly once. -/
theorem deposit_auto_register (s : ContractState) (sender : String)
    (amount : ℚ) (hu : mget s.users sender = none) (ha : 0 < amount) :
    deposit sender amount s = .ok
      { s with
        users := mput sender (User.mk sender "" (100 + amount) []) s.users,
        user_ids := s.user_ids ++ [sender] } := by
  have hna : ¬ amount ≤ 0 := not_le.mpr ha
  simp [deposit, hu, User.new, hna]

/-- Witness for C10: a fresh deposit of 5 on the initial state creates the
user with balance 105. -/
theorem deposit_auto_register_witness :
    deposit "A" 5 initState = .ok
      { initState with
        users := [("A", User.mk "A" "" 105 [])],
        user_ids := ["A"] } := by
  have h := deposit_auto_register initState "A" 5 rfl (by norm_num)
  norm_num [initState, mput] at h ⊢
  exact h

theorem reward_stakers_shape (s : ContractState) (stakes : List Stake)
    (inc : Bool) (claimed : Card) :
    (reward_stakers s stakes inc claimed).hands = s.hands
    ∧ (reward_stakers s stakes inc claimed).offers = s.offers
    ∧ (reward_stakers s stakes inc claimed).user_ids = s.user_ids
    ∧ (reward_stakers s stakes inc claimed).hand_ids = s.hand_ids
    ∧ (reward_stakers s stakes inc claimed).offer_ids = s.offer_ids
    ∧ (reward_stakers s stakes inc claimed).hand_counter = s.hand_counter
    ∧ (reward_stakers s stakes inc claimed).offer_counter = s.offer_counter :=
  credit_fold_shape _ _ _

theorem reward_stakers_users (s : ContractState) (stakes : List Stake)
    (inc : Bool) (claimed : Card) (uid : String) :
    mget (reward_stakers s stakes inc claimed).users uid
      = (mget s.users uid).map (fun u =>
          User.mk u.user_id u.bio
            (u.balance + creditedSum uid
              (stakes.take (if inc then stakes.length else stakes.length - 1))
              claimed) u.cards) :=
  credit_fold_users _ _ _ _

theorem reward_stakers_userCards (s : ContractState) (stakes : List Stake)
    (inc : Bool) (claimed : Card) :
    mapSum userCardCount (reward_stakers s stakes inc claimed).users
      = mapSum userCardCount s.users :=
  credit_fold_userCards _ _ _

/-- C1 (amended): `check` on a stored, unresolved hand with at least one
stake resolves the hand and settles balances as follows. Bluff iff some card
of the last stake is not wildcard-equivalent to the claim. Every registered
staker other than the checker is credited, per card of each of their credited
stakes (all stakes except the last when a bluff is detected, all stakes
otherwise), `EQUIVALENT_REWARD` for a card equivalent to the claim and
`BLUFF_REWARD` otherwise. The checker's balance, however, always becomes
exactly its pre-check value plus (bluff) or minus (no bluff) the card count
of the last stake: any staking rewards the checker earned in the same call
are overwritten by the stale checker record written last. -/
theorem check_settlement_amended (s : ContractState) (sender hand_id : String)
    (checker : User) (hand : Hand) (last : Stake)
    (hu : mget s.users sender = some checker)
    (hh : mget s.hands hand_id = some hand)
    (hr : hand.is_resolved = false)
    (hl : hand.stakes.getLast? = some last) :
    ∃ s1, check sender hand_id s
        = .ok (last.cards.any (fun c => !(Card.equivalent c hand.claimed_card)), s1)
      ∧ mget s1.hands hand_id = some { hand with is_resolved := true }
      ∧ (∀ k, k ≠ hand_id → mget s1.hands k = mget s.hands k)
      ∧ mget s1.users sender = some (User.mk checker.user_id checker.bio
          (if last.cards.any (fun c => !(Card.equivalent c hand.claimed_card))
           then checker.balance + (last.cards.length : ℚ)
           else checker.balance - (last.cards.length : ℚ)) checker.cards)
      ∧ (∀ uid, uid ≠ sender →
          mget s1.users uid = (mget s.users uid).map (fun u =>
            User.mk u.user_id u.bio
              (u.balance + creditedSum uid
                (hand.stakes.take
                  (if last.cards.any (fun c => !(Card.equivalent c hand.claimed_card))
                   then hand.stakes.length - 1 else hand.stakes.length))
                hand.claimed_card) u.cards)) := by
  have hbluff : is_bluff hand
      = some (last.cards.any (fun c => !(Card.equivalent c hand.claimed_card))) := by
    simp [is_bluff, hl]
  simp only [check, hu, hh, hr, hl, hbluff, Bool.false_eq_true, if_false,
    Option.getD_some]
  refine ⟨_, rfl, ?_, ?_, ?_, ?_⟩
  · exact mget_mput_self _ _ _
  · intro k hk
    rw [mget_mput_ne _ _ hk, (reward_stakers_shape _ _ _ _).1]
  · exact mget_mput_self _ _ _
  · intro uid huid
    rw [mget_mput_ne _ _ huid]
    rw [reward_stakers_users]
    cases hB : last.cards.any (fun c => !(Card.equivalent c hand.claimed_card)) <;>
      simp [hB]

/-- C1 counterexample: in `c1State` user `A` (balance 100) is both the only
staker (one `ACE` behind claim `ACE`) and the checker. No bluff, so the claim
predicts balance `100 - 1 + EQUIVALENT_REWARD = 100`; the code leaves `A` at
`99` because the staking reward is overwritten by the stale checker record. -/
theorem check_settlement_cex :
    (check "A" "h" c1State).toOption.map
        (fun p => (mget p.2.users "A").map User.balance)
      = some (some 99)
    ∧ (99 : ℚ) ≠ 100 - 1 + EQUIVALENT_REWARD := by
  constructor
  · norm_num [check, c1State, initState, mget, mput, is_bluff, Card.equivalent,
      reward_stakers, creditStake, stakeReward, Except.toOption,
      EQUIVALENT_REWARD, BLUFF_REWARD]
  · norm_num [EQUIVALENT_REWARD]

/-- Witness for the amended C1 at the concrete state `c1State`. -/
theorem check_settlement_amended_witness :
    ∃ s1, check "A" "h" c1State = .ok (false, s1)
      ∧ mget s1.users "A" = some (User.mk "A" "" 99 []) := by
  obtain ⟨s1, h1, _, _, h4, _⟩ :=
    check_settlement_amended c1State "A" "h" (User.mk "A" "" 100 [])
      (Hand.mk "h" "A" .ACE false [Stake.mk "A" [.ACE]]) (Stake.mk "A" [.ACE])
      rfl rfl rfl rfl
  refine ⟨s1, ?_, ?_⟩
  · simpa [Card.equivalent] using h1
  · rw [h4]
    norm_num [Card.equivalent]

/-- C6: `resolve` is idempotent: applying the operation twice yields exactly
the state of applying it once, and a second call after a successful one
succeeds as a no-op (for any state, caller and offer id; in particular for
the creator). -/
theorem resolve_idempotent (s : ContractState) (sender offer_id : String) :
    applyOp (applyOp s (.resolveOp sender offer_id)) (.resolveOp sender offer_id)
      = applyOp s (.resolveOp sender offer_id)
    ∧ (∀ s1, resolve sender offer_id s = .ok s1 →
        resolve sender offer_id s1 = .ok s1) := by
  have key : ∀ s1, resolve sender offer_id s = .ok s1 →
      resolve sender offer_id s1 = .ok s1 := by
    intro s1 h
    unfold resolve at h
    cases ho : mget s.offers offer_id with
    | none => rw [ho] at h; simp at h
    | some o =>
      rw [ho] at h
      dsimp only at h
      by_cases hc : o.creator_id = sender
      · rw [if_neg (by simp [hc])] at h
        by_cases hr : o.is_resolved = true
        · rw [if_pos hr] at h
          simp only [Except.ok.injEq] at h
          subst h
          unfold resolve
          rw [ho]
          dsimp only
          rw [if_neg (by simp [hc]), if_pos hr]
        · rw [if_neg hr] at h
          cases hb : o.current_bid with
          | none =>
            rw [hb] at h
            dsimp only at h
            simp only [Except.ok.injEq] at h
            subst h
            unfold resolve
            simp [mget_mput_self, hc]
          | some ba =>
            cases hbi : o.current_bidder_id with
            | none =>
              rw [hb, hbi] at h
              dsimp only at h
              simp only [Except.ok.injEq] at h
              subst h
              unfold resolve
              simp [mget_mput_self, hc]
            | some bi =>
              rw [hb, hbi] at h
              dsimp only at h
              cases hbd : mget s.users bi with
              | none => rw [hbd] at h; simp at h
              | some bidder =>
                rw [hbd] at h
                dsimp only at h
                cases hcr : mget s.users sender with
                | none => rw [hcr] at h; simp at h
                | some creator =>
                  rw [hcr] at h
                  dsimp only at h
                  simp only [Except.ok.injEq] at h
                  subst h
                  unfold resolve
                  simp [mget_mput_self, hc]
      · rw [if_pos (by simp [hc])] at h
        simp at h
  refine ⟨?_, key⟩
  cases hres : resolve sender offer_id s with
  | error e =>
    simp [applyOp, hres]
  | ok s1 =>
    have h2 := key s1 hres
    simp [applyOp, hres, h2]

/-- Witness for C6 at the concrete state `c6State` (open offer "1" by `A`,
no bids): a second `resolve` succeeds and changes nothing. -/
theorem resolve_idempotent_witness :
    resolve "A" "1" (applyOp c6State (.resolveOp "A" "1"))
      = .ok (applyOp c6State (.resolveOp "A" "1")) :=
  (resolve_idempotent c6State "A" "1").2 (applyOp c6State (.resolveOp "A" "1"))
    (by rfl)

/-- C3 is violated by the code: `withdraw_bid` never checks `is_resolved`.
After `c3Ops` (offer by `A` at price 10, bid 15 by `B`, resolved by `A` — so
`A` was already credited the 15), the offer is Resolved yet still records
`B`'s bid; `B`'s `withdraw_bid` then succeeds, credits `B` the 15 a second
time (`B` back to 100 while `A` keeps 115) and clears the resolved offer's
`current_bid`/`current_bidder_id` fields. -/
theorem withdraw_bid_after_resolve_bug :
    (mget (runOps initState c3Ops).offers "1").map
        (fun o => (o.is_resolved, o.current_bid, o.current_bidder_id))
      = some (true, some 15, some "B")
    ∧ (withdraw_bid "B" "1" (runOps initState c3Ops)).toOption.isSome = true
    ∧ (mget (runOps initState (c3Ops ++ [.withdrawBid "B" "1"])).offers "1").map
        (fun o => (o.is_resolved, o.current_bid, o.current_bidder_id))
      = some (true, none, none)
    ∧ (mget (runOps initState (c3Ops ++ [.withdrawBid "B" "1"])).users "B").map
        User.balance = some 100
    ∧ (mget (runOps initState (c3Ops ++ [.withdrawBid "B" "1"])).users "A").map
        User.balance = some 115 := by
  refine ⟨?_, ?_, ?_, ?_, ?_⟩
  · decide
  · decide
  · decide
  · have h : (mget (runOps initState (c3Ops ++ [.withdrawBid "B" "1"])).users
        "B").map User.balance = some ((100 : ℚ) - 15 + 15) := by rfl
    rw [h]
    norm_num
  · have h : (mget (runOps initState (c3Ops ++ [.withdrawBid "B" "1"])).users
        "A").map User.balance = some ((100 : ℚ) + 15) := by rfl
    rw [h]
    norm_num

/-- C4: `bid` fails exactly on the claimed conditions — caller unregistered,
offer missing or resolved, creator self-bid, bid not strictly above the
current bid (or the initial price when no bid stands), or a bidder balance
(measured after any self-refund) below the bid — and a failing `bid` leaves
the state completely unchanged; in particular a previous different bidder's
refund, written inside the body before the balance check, is not persisted
when the balance check fails. -/
theorem bid_atomic_on_failure (s : ContractState) (sender offer_id : String)
    (amt : ℚ) :
    ((∃ e, bid sender offer_id amt s = .error e)
        ↔ bidErrorCond sender offer_id amt s)
    ∧ (∀ e, bid sender offer_id amt s = .error e →
        applyOp s (.bidOp sender offer_id amt) = s) := by
  constructor
  · unfold bid bidBody bidErrorCond effectiveBidBalance
    cases hu : mget s.users sender with
    | none => simp
    | some bidder =>
      cases ho : mget s.offers offer_id with
      | none => simp
      | some o =>
        dsimp only
        by_cases hr : o.is_resolved = true
        · simp [hr]
        · rw [if_neg hr]
          by_cases hc : o.creator_id = sender
          · simp [hc, hr]
          · rw [if_neg hc]
            cases hcb : o.current_bid with
            | none =>
              simp only [Option.getD_none]
              by_cases hm : amt ≤ o.initial_price
              · simp [hm, hr, hc]
              · rw [if_neg hm]
                by_cases hbal : bidder.balance < amt
                · simp [hbal, hm, hr, hc]
                · simp [hbal, hm, hr, hc]
            | some cb =>
              simp only [Option.getD_some]
              by_cases hm : amt ≤ cb
              · simp [hm, hr, hc]
              · rw [if_neg hm]
                cases hcbi : o.current_bidder_id with
                | none =>
                  dsimp only
                  by_cases hbal : bidder.balance < amt
                  · simp [hbal, hm, hr, hc]
                  · simp [hbal, hm, hr, hc]
                | some prevId =>
                  dsimp only
                  by_cases hp : prevId = sender
                  · rw [if_pos hp]
                    dsimp only
                    by_cases hbal : bidder.balance + cb < amt
                    · simp [hbal, hm, hr, hc, hp]
                    · simp [hbal, hm, hr, hc, hp]
                  · rw [if_neg hp]
                    cases hprev : mget s.users prevId with
                    | none =>
                      dsimp only
                      by_cases hbal : bidder.balance < amt
                      · simp [hbal, hm, hr, hc, hp]
                      · simp [hbal, hm, hr, hc, hp]
                    | some prev =>
                      dsimp only
                      by_cases hbal : bidder.balance < amt
                      · simp [hbal, hm, hr, hc, hp]
                      · simp [hbal, hm, hr, hc, hp]
  · intro e h
    simp [applyOp, h]

/-- Witness for C4 at `c4State` (offer "1" by `A` with standing bid 10 by
`B`): `C`'s bid of 150 exceeds `C`'s balance, the call fails, and the state —
including `B`'s debited balance — is exactly unchanged. -/
theorem bid_atomic_on_failure_witness :
    bid "C" "1" 150 c4State = .error "insufficient balance for bid"
    ∧ applyOp c4State (.bidOp "C" "1" 150) = c4State := by
  have he : bid "C" "1" 150 c4State = .error "insufficient balance for bid" :=
    by rfl
  exact ⟨he, (bid_atomic_on_failure c4State "C" "1" 150).2 _ he⟩

theorem GoodState_init : GoodState initState := by
  refine ⟨?_, ?_, ?_, ?_, ?_⟩ <;> intro k v h <;> simp [initState, mget] at h

theorem GoodState_users_change (s : ContractState) (hg : GoodState s)
    (users1 : List (String × User)) (ids1 : List String)
    (hiso : ∀ k, (mget s.users k).isSome = true →
      (mget users1 k).isSome = true) :
    GoodState { s with users := users1, user_ids := ids1 } := by
  obtain ⟨hg1, hg2, hg3, hg4, hg5⟩ := hg
  exact ⟨hg1, hg2, fun k o hko => hiso _ (hg3 k o hko), hg4, hg5⟩

theorem GoodState_applyOp (s : ContractState) (op : Op) (hg : GoodState s) :
    GoodState (applyOp s op) := by
  obtain ⟨hg1, hg2, hg3, hg4, hg5⟩ := hg
  cases op with
  | registerUser sender bio =>
    simp only [applyOp, register_user]
    cases hu : mget s.users sender with
    | some existing =>
      dsimp only
      exact GoodState_users_change s ⟨hg1, hg2, hg3, hg4, hg5⟩ _ _
        (fun k hk => isSome_mget_mput _ _ hk)
    | none =>
      dsimp only
      exact GoodState_users_change s ⟨hg1, hg2, hg3, hg4, hg5⟩ _ _
        (fun k hk => isSome_mget_mput _ _ hk)
  | buyCards sender amount seed =>
    simp only [applyOp, buy_cards]
    cases hu : mget s.users sender with
    | none => exact ⟨hg1, hg2, hg3, hg4, hg5⟩
    | some user =>
      dsimp only
      by_cases hsp : (⌊amount⌋ : ℤ) ≤ 0
      · rw [if_pos hsp]
        exact ⟨hg1, hg2, hg3, hg4, hg5⟩
      · rw [if_neg hsp]
        by_cases hbal : user.balance < (⌊amount⌋ : ℚ)
        · rw [if_pos hbal]
          exact ⟨hg1, hg2, hg3, hg4, hg5⟩
        · rw [if_neg hbal]
          dsimp only
          exact GoodState_users_change s ⟨hg1, hg2, hg3, hg4, hg5⟩ _ _
            (fun k hk => isSome_mget_mput _ _ hk)
  | depositOp sender amount =>
    simp only [applyOp, deposit]
    by_cases ha : amount ≤ 0
    · rw [if_pos ha]
      exact ⟨hg1, hg2, hg3, hg4, hg5⟩
    · rw [if_neg ha]
      dsimp only
      exact GoodState_users_change s ⟨hg1, hg2, hg3, hg4, hg5⟩ _ _
        (fun k hk => isSome_mget_mput _ _ hk)
  | startHand sender claim cards =>
    simp only [applyOp, start_hand]
    cases hu : mget s.users sender with
    | none => exact ⟨hg1, hg2, hg3, hg4, hg5⟩
    | some user =>
      dsimp only
      cases hrm : remove_cards_from_inventory user.cards cards with
      | error e => exact ⟨hg1, hg2, hg3, hg4, hg5⟩
      | ok inv =>
        dsimp only
        refine ⟨?_, ?_, ?_, ?_, ?_⟩
        · intro k h hk
          by_cases hkid : k = Nat.repr (s.hand_counter + 1)
          · exact ⟨s.hand_counter + 1, le_refl _, hkid⟩
          · rw [mget_mput_ne _ _ hkid] at hk
            obtain ⟨n, hn, hkn⟩ := hg1 k h hk
            exact ⟨n, Nat.le_succ_of_le hn, hkn⟩
        · exact hg2
        · exact fun k o hko => isSome_mget_mput _ _ (hg3 k o hko)
        · exact hg4
        · intro k h hk
          by_cases hkid : k = Nat.repr (s.hand_counter + 1)
          · subst hkid
            rw [mget_mput_self] at hk
            cases hk
            simp
          · rw [mget_mput_ne _ _ hkid] at hk
            exact hg5 k h hk
  | stakeOp sender hand_id cards =>
    simp only [applyOp, stake]
    cases hu : mget s.users sender with
    | none => exact ⟨hg1, hg2, hg3, hg4, hg5⟩
    | some user =>
      dsimp only
      cases hh : mget s.hands hand_id with
      | none => exact ⟨hg1, hg2, hg3, hg4, hg5⟩
      | some hand =>
        dsimp only
        by_cases hres : hand.is_resolved = true
        · rw [if_pos hres]
          exact ⟨hg1, hg2, hg3, hg4, hg5⟩
        · rw [if_neg hres]
          cases hrm : remove_cards_from_inventory user.cards cards with
          | error e => exact ⟨hg1, hg2, hg3, hg4, hg5⟩
          | ok inv =>
            dsimp only
            refine ⟨?_, ?_, ?_, ?_, ?_⟩
            · intro k h hk
              by_cases hkid : k = hand_id
              · subst hkid
                exact hg1 k hand hh
              · rw [mget_mput_ne _ _ hkid] at hk
                exact hg1 k h hk
            · exact hg2
            · exact fun k o hko => isSome_mget_mput _ _ (hg3 k o hko)
            · exact hg4
            · intro k h hk
              by_cases hkid : k = hand_id
              · subst hkid
                rw [mget_mput_self] at hk
                cases hk
                simp
              · rw [mget_mput_ne _ _ hkid] at hk
                exact hg5 k h hk
  | checkOp sender hand_id =>
    simp only [applyOp, check]
    cases hu : mget s.users sender with
    | none => exact ⟨hg1, hg2, hg3, hg4, hg5⟩
    | some checker =>
      dsimp only
      cases hh : mget s.hands hand_id with
      | none => exact ⟨hg1, hg2, hg3, hg4, hg5⟩
      | some hand =>
        dsimp only
        by_cases hres : hand.is_resolved = true
        · rw [if_pos hres]
          exact ⟨hg1, hg2, hg3, hg4, hg5⟩
        · rw [if_neg hres]
          cases hl : hand.stakes.getLast? with
          | none => exact ⟨hg1, hg2, hg3, hg4, hg5⟩
          | some last =>
            dsimp only
            refine ⟨?_, ?_, ?_, ?_, ?_⟩
            · intro k h hk
              rw [(reward_stakers_shape _ _ _ _).1] at hk
              rw [(reward_stakers_shape _ _ _ _).2.2.2.2.2.1]
              by_cases hkid : k = hand_id
              · subst hkid
                exact hg1 k hand hh
              · rw [mget_mput_ne _ _ hkid] at hk
                exact hg1 k h hk
            · intro k o hko
              rw [(reward_stakers_shape _ _ _ _).2.1] at hko
              rw [(reward_stakers_shape _ _ _ _).2.2.2.2.2.2]
              exact hg2 k o hko
            · intro k o hko
              rw [(reward_stakers_shape _ _ _ _).2.1] at hko
              refine isSome_mget_mput _ _ ?_
              rw [reward_stakers_users, Option.isSome_map']
              exact hg3 k o hko
            · intro k o hko
              rw [(reward_stakers_shape _ _ _ _).2.1] at hko
              exact hg4 k o hko
            · intro k h hk
              rw [(reward_stakers_shape _ _ _ _).1] at hk
              by_cases hkid : k = hand_id
              · subst hkid
                rw [mget_mput_self] at hk
                cases hk
                exact hg5 _ hand hh
              · rw [mget_mput_ne _ _ hkid] at hk
                exact hg5 k h hk
  | offerOp sender cards amount =>
    simp only [applyOp, offer]
    cases hu : mget s.users sender with
    | none => exact ⟨hg1, hg2, hg3, hg4, hg5⟩
    | some user =>
      dsimp only
      cases hrm : remove_cards_from_inventory user.cards cards with
      | error e => exact ⟨hg1, hg2, hg3, hg4, hg5⟩
      | ok inv =>
        dsimp only
        refine ⟨hg1, ?_, ?_, ?_, hg5⟩
        · intro k o hko
          by_cases hkid : k = Nat.repr (s.offer_counter + 1)
          · exact ⟨s.offer_counter + 1, le_refl _, hkid⟩
          · rw [mget_mput_ne _ _ hkid] at hko
            obtain ⟨n, hn, hkn⟩ := hg2 k o hko
            exact ⟨n, Nat.le_succ_of_le hn, hkn⟩
        · intro k o hko
          by_cases hkid : k = Nat.repr (s.offer_counter + 1)
          · subst hkid
            rw [mget_mput_self] at hko
            cases hko
            simp [mget_mput_self]
          · rw [mget_mput_ne _ _ hkid] at hko
            exact isSome_mget_mput _ _ (hg3 k o hko)
        · intro k o hko
          by_cases hkid : k = Nat.repr (s.offer_counter + 1)
          · subst hkid
            rw [mget_mput_self] at hko
            cases hko
            simp
          · rw [mget_mput_ne _ _ hkid] at hko
            exact hg4 k o hko
  | withdrawBid sender offer_id =>
    simp only [applyOp, withdraw_bid]
    cases ho : mget s.offers offer_id with
    | none => exact ⟨hg1, hg2, hg3, hg4, hg5⟩
    | some o =>
      dsimp only
      by_cases hbi : o.current_bidder_id ≠ some sender
      · rw [if_pos hbi]
        exact ⟨hg1, hg2, hg3, hg4, hg5⟩
      · rw [if_neg hbi]
        dsimp only
        have husers : ∀ k, (mget s.users k).isSome = true →
            (mget (match o.current_bid with
              | some amount =>
                match mget s.users sender with
                | some bidder =>
                  mput sender { bidder with
                    balance := bidder.balance + amount } s.users
                | none => s.users
              | none => s.users) k).isSome = true := by
          intro k hk
          cases o.current_bid with
          | none => exact hk
          | some amount =>
            cases mget s.users sender with
            | none => exact hk
            | some bidder => exact isSome_mget_mput _ _ hk
        refine ⟨hg1, ?_, ?_, ?_, hg5⟩
        · intro k o2 hko
          by_cases hkid : k = offer_id
          · subst hkid
            exact hg2 k o ho
          · rw [mget_mput_ne _ _ hkid] at hko
            exact hg2 k o2 hko
        · intro k o2 hko
          by_cases hkid : k = offer_id
          · subst hkid
            rw [mget_mput_self] at hko
            cases hko
            exact husers _ (hg3 _ o ho)
          · rw [mget_mput_ne _ _ hkid] at hko
            exact husers _ (hg3 k o2 hko)
        · intro k o2 hko
          by_cases hkid : k = offer_id
          · subst hkid
            rw [mget_mput_self] at hko
            cases hko
            simp
          · rw [mget_mput_ne _ _ hkid] at hko
            exact hg4 k o2 hko
  | bidOp sender offer_id amount =>
    simp only [applyOp, bid, bidBody]
    cases hu : mget s.users sender with
    | none => exact ⟨hg1, hg2, hg3, hg4, hg5⟩
    | some bidder =>
      dsimp only
      cases ho : mget s.offers offer_id with
      | none => exact ⟨hg1, hg2, hg3, hg4, hg5⟩
      | some o =>
        dsimp only
        by_cases hres : o.is_resolved = true
        · rw [if_pos hres]
          exact ⟨hg1, hg2, hg3, hg4, hg5⟩
        · rw [if_neg hres]
          by_cases hc : o.creator_id = sender
          · rw [if_pos hc]
            exact ⟨hg1, hg2, hg3, hg4, hg5⟩
          · rw [if_neg hc]
            by_cases hm : amount ≤ o.current_bid.getD o.initial_price
            · rw [if_pos hm]
              exact ⟨hg1, hg2, hg3, hg4, hg5⟩
            · rw [if_neg hm]
              have hmid : ∀ b1 : User, ∀ sr : ContractState,
                  sr.offers = s.offers → sr.hands = s.hands →
                  sr.hand_counter = s.hand_counter →
                  sr.offer_counter = s.offer_counter →
                  (∀ k, (mget s.users k).isSome = true →
                    (mget sr.users k).isSome = true) →
                  GoodState sr ∧
                  GoodState
                    { sr with
                      users := mput sender
                        (User.mk b1.user_id b1.bio (b1.balance - amount)
                          b1.cards) sr.users,
                      offers := mput offer_id
                        (Offer.mk o.offer_id o.creator_id o.cards
                          o.initial_price (some amount) (some sender)
                          o.is_resolved) sr.offers } := by
                intro b1 sr hso hsh hshc hsoc hsu
                constructor
                · refine ⟨?_, ?_, ?_, ?_, ?_⟩
                  · intro k h hk
                    rw [hsh] at hk
                    rw [hshc]
                    exact hg1 k h hk
                  · intro k o2 hko
                    rw [hso] at hko
                    rw [hsoc]
                    exact hg2 k o2 hko
                  · intro k o2 hko
                    rw [hso] at hko
                    exact hsu _ (hg3 k o2 hko)
                  · intro k o2 hko
                    rw [hso] at hko
                    exact hg4 k o2 hko
                  · intro k h hk
                    rw [hsh] at hk
                    exact hg5 k h hk
                · refine ⟨?_, ?_, ?_, ?_, ?_⟩
                  · intro k h hk
                    rw [hsh] at hk
                    rw [hshc]
                    exact hg1 k h hk
                  · intro k o2 hko
                    rw [hsoc]
                    by_cases hkid : k = offer_id
                    · subst hkid
                      exact hg2 k o ho
                    · rw [mget_mput_ne _ _ hkid, hso] at hko
                      exact hg2 k o2 hko
                  · intro k o2 hko
                    refine isSome_mget_mput _ _ ?_
                    by_cases hkid : k = offer_id
                    · subst hkid
                      rw [mget_mput_self] at hko
                      cases hko
                      exact hsu _ (hg3 _ o ho)
                    · rw [mget_mput_ne _ _ hkid, hso] at hko
                      exact hsu _ (hg3 k o2 hko)
                  · intro k o2 hko
                    by_cases hkid : k = offer_id
                    · subst hkid
                      rw [mget_mput_self] at hko
                      cases hko
                      simp [Ne.symm hc]
                    · rw [mget_mput_ne _ _ hkid, hso] at hko
                      exact hg4 k o2 hko
                  · intro k h hk
                    rw [hsh] at hk
                    exact hg5 k h hk
              cases hcb : o.current_bid with
              | none =>
                dsimp only
                by_cases hbal : bidder.balance < amount
                · rw [if_pos hbal]
                  exact ⟨hg1, hg2, hg3, hg4, hg5⟩
                · rw [if_neg hbal]
                  exact (hmid bidder s rfl rfl rfl rfl (fun k hk => hk)).2
              | some prevAmt =>
                cases hcbi : o.current_bidder_id with
                | none =>
                  dsimp only
                  by_cases hbal : bidder.balance < amount
                  · rw [if_pos hbal]
                    exact ⟨hg1, hg2, hg3, hg4, hg5⟩
                  · rw [if_neg hbal]
                    exact (hmid bidder s rfl rfl rfl rfl (fun k hk => hk)).2
                | some prevId =>
                  dsimp only
                  by_cases hp : prevId = sender
                  · rw [if_pos hp]
                    dsimp only
                    by_cases hbal : bidder.balance + prevAmt < amount
                    · rw [if_pos hbal]
                      exact ⟨hg1, hg2, hg3, hg4, hg5⟩
                    · rw [if_neg hbal]
                      exact (hmid (User.mk bidder.user_id bidder.bio
                        (bidder.balance + prevAmt) bidder.cards) s
                        rfl rfl rfl rfl (fun k hk => hk)).2
                  · rw [if_neg hp]
                    cases hprev : mget s.users prevId with
                    | none =>
                      dsimp only
                      by_cases hbal : bidder.balance < amount
                      · rw [if_pos hbal]
                        exact ⟨hg1, hg2, hg3, hg4, hg5⟩
                      · rw [if_neg hbal]
                        exact (hmid bidder s rfl rfl rfl rfl
                          (fun k hk => hk)).2
                    | some prev =>
                      dsimp only
                      by_cases hbal : bidder.balance < amount
                      · rw [if_pos hbal]
                        exact ⟨hg1, hg2, hg3, hg4, hg5⟩
                      · rw [if_neg hbal]
                        exact (hmid bidder { s with users := mput prevId (User.mk prev.user_id prev.bio (prev.balance + prevAmt) prev.cards) s.users } rfl rfl rfl rfl (fun k hk => isSome_mget_mput _ _ hk)).2
  | resolveOp sender offer_id =>
    simp only [applyOp, resolve]
    cases ho : mget s.offers offer_id with
    | none => exact ⟨hg1, hg2, hg3, hg4, hg5⟩
    | some o =>
      dsimp only
      by_cases hc : o.creator_id ≠ sender
      · rw [if_pos hc]
        exact ⟨hg1, hg2, hg3, hg4, hg5⟩
      · rw [if_neg hc]
        by_cases hres : o.is_resolved = true
        · rw [if_pos hres]
          exact ⟨hg1, hg2, hg3, hg4, hg5⟩
        · rw [if_neg hres]
          have hfin : ∀ (cb : Option ℚ) (cbi : Option String),
              o.current_bidder_id = cbi →
              ∀ users1 : List (String × User),
              (∀ k, (mget s.users k).isSome = true →
                (mget users1 k).isSome = true) →
              GoodState
                { s with
                  users := users1,
                  offers := mput offer_id
                    (Offer.mk o.offer_id o.creator_id o.cards o.initial_price
                      cb cbi true) s.offers } := by
            intro cb cbi hcbi users1 hsu
            refine ⟨hg1, ?_, ?_, ?_, hg5⟩
            · intro k o2 hko
              by_cases hkid : k = offer_id
              · subst hkid
                exact hg2 k o ho
              · rw [mget_mput_ne _ _ hkid] at hko
                exact hg2 k o2 hko
            · intro k o2 hko
              by_cases hkid : k = offer_id
              · subst hkid
                rw [mget_mput_self] at hko
                cases hko
                exact hsu _ (hg3 _ o ho)
              · rw [mget_mput_ne _ _ hkid] at hko
                exact hsu _ (hg3 k o2 hko)
            · intro k o2 hko
              by_cases hkid : k = offer_id
              · subst hkid
                rw [mget_mput_self] at hko
                cases hko
                have h4 := hg4 _ o ho
                rw [hcbi] at h4
                exact h4
              · rw [mget_mput_ne _ _ hkid] at hko
                exact hg4 k o2 hko
          cases hcb : o.current_bid with
          | none =>
            cases hcbi : o.current_bidder_id with
            | none =>
              cases hcr : mget s.users sender with
              | none => exact hfin none none hcbi s.users (fun k hk => hk)
              | some creator =>
                exact hfin none none hcbi _
                  (fun k hk => isSome_mget_mput _ _ hk)
            | some bi =>
              cases hcr : mget s.users sender with
              | none => exact hfin none (some bi) hcbi s.users (fun k hk => hk)
              | some creator =>
                exact hfin none (some bi) hcbi _
                  (fun k hk => isSome_mget_mput _ _ hk)
          | some ba =>
            cases hcbi : o.current_bidder_id with
            | none =>
              cases hcr : mget s.users sender with
              | none =>
                exact hfin (some ba) none hcbi s.users (fun k hk => hk)
              | some creator =>
                exact hfin (some ba) none hcbi _
                  (fun k hk => isSome_mget_mput _ _ hk)
            | some bi =>
              dsimp only
              cases hbd : mget s.users bi with
              | none => exact ⟨hg1, hg2, hg3, hg4, hg5⟩
              | some bidder =>
                dsimp only
                cases hcr : mget s.users sender with
                | none => exact ⟨hg1, hg2, hg3, hg4, hg5⟩
                | some creator =>
                  exact hfin (some ba) (some bi) hcbi _ (fun k hk =>
                    isSome_mget_mput _ _ (isSome_mget_mput _ _ hk))

theorem GoodState_runOps (ops : List Op) : GoodState (runOps initState ops) := by
  suffices h : ∀ s, GoodState s → GoodState (runOps s ops) from h _ GoodState_init
  induction ops with
  | nil => intro s hs; exact hs
  | cons op rest ih => intro s hs; exact ih _ (GoodState_applyOp s op hs)

/-- C9: in every state reachable from the initial state, every stored hand
has at least one stake, and `is_bluff` on such a hand never takes its
panic branch (modelled as `none`). -/
theorem hands_always_staked (ops : List Op) (k : String) (h : Hand)
    (hk : mget (runOps initState ops).hands k = some h) :
    h.stakes ≠ [] ∧ (is_bluff h).isSome = true := by
  have hg := GoodState_runOps ops
  have h5 := hg.2.2.2.2 k h hk
  refine ⟨h5, ?_⟩
  unfold is_bluff
  rw [Option.isSome_map']
  rw [List.getLast?_isSome]
  exact h5

/-- Witness for C9: the hand created by the concrete sequence register, buy
one card, start a hand. -/
theorem hands_always_staked_witness :
    c9Hand.stakes ≠ [] ∧ (is_bluff c9Hand).isSome = true :=
  hands_always_staked (c2Ops.take 3) "1" c9Hand (by decide)

theorem totalCards_register (s : ContractState) (sender bio : String) :
    totalCards (applyOp s (.registerUser sender bio)) = totalCards s := by
  simp only [applyOp, register_user]
  cases hu : mget s.users sender with
  | some existing =>
    dsimp only
    have h := mapSum_mput_some (f := userCardCount)
      (v := { existing with bio := bio }) hu
    simp only [totalCards, userCardCount] at h ⊢
    omega
  | none =>
    dsimp only
    have h := mapSum_mput_none (f := userCardCount)
      (v := User.new sender bio) hu
    simp only [totalCards, userCardCount, User.new] at h ⊢
    simp only [List.length_nil] at h
    omega

theorem totalCards_deposit (s : ContractState) (sender : String) (amount : ℚ) :
    totalCards (applyOp s (.depositOp sender amount)) = totalCards s := by
  simp only [applyOp, deposit]
  by_cases ha : amount ≤ 0
  · rw [if_pos ha]
  · rw [if_neg ha]
    dsimp only
    cases hu : mget s.users sender with
    | some user =>
      have h := mapSum_mput_some (f := userCardCount)
        (v := { (mget s.users sender).getD (User.new sender "") with
          balance := ((mget s.users sender).getD (User.new sender "")).balance
            + amount }) hu
      rw [hu] at h
      simp only [totalCards, userCardCount, Option.getD_some] at h ⊢
      omega
    | none =>
      have h := mapSum_mput_none (f := userCardCount)
        (v := { (mget s.users sender).getD (User.new sender "") with
          balance := ((mget s.users sender).getD (User.new sender "")).balance
            + amount }) hu
      rw [hu] at h
      simp only [totalCards, userCardCount, Option.getD_none, User.new] at h ⊢
      simp only [List.length_nil] at h
      omega

theorem totalCards_withdraw (s : ContractState) (sender offer_id : String) :
    totalCards (applyOp s (.withdrawBid sender offer_id)) = totalCards s := by
  simp only [applyOp, withdraw_bid]
  cases ho : mget s.offers offer_id with
  | none => rfl
  | some o =>
    dsimp only
    by_cases hbi : o.current_bidder_id ≠ some sender
    · rw [if_pos hbi]
    · rw [if_neg hbi]
      dsimp only
      have husers : mapSum userCardCount
          (match o.current_bid with
            | some amount =>
              match mget s.users sender with
              | some bidder =>
                mput sender { bidder with
                  balance := bidder.balance + amount } s.users
              | none => s.users
            | none => s.users)
          = mapSum userCardCount s.users := by
        cases o.current_bid with
        | none => rfl
        | some amount =>
          cases hu : mget s.users sender with
          | none => rfl
          | some bidder =>
            have h := mapSum_mput_some (f := userCardCount)
              (v := { bidder with balance := bidder.balance + amount }) hu
            simp only [userCardCount] at h ⊢
            omega
      have hoff := mapSum_mput_some (f := openOfferCards)
        (v := { o with current_bid := none, current_bidder_id := none }) ho
      have hocards : openOfferCards { o with current_bid := none, current_bidder_id := none } = openOfferCards o := by
        simp [openOfferCards]
      simp only [totalCards]
      rw [husers]
      omega

theorem totalCards_start_result (s : ContractState) (sender hid : String)
    (user user1 : User) (hand : Hand)
    (hu : mget s.users sender = some user)
    (hfresh : mget s.hands hid = none)
    (hulen : userCardCount user = userCardCount user1 + handCards hand)
    (hopen : openHandCards hand = handCards hand) :
    totalCards
      { s with
        users := mput sender user1 s.users,
        hands := mput hid hand s.hands,
        hand_ids := s.hand_ids ++ [hid],
        hand_counter := s.hand_counter + 1 } = totalCards s := by
  simp only [totalCards]
  have e1 := mapSum_mput_some (f := userCardCount) (v := user1) hu
  have e2 := mapSum_mput_none (f := openHandCards) (v := hand) hfresh
  omega

theorem totalCards_stake_result (s : ContractState) (sender hand_id : String)
    (user user1 : User) (hand hand1 : Hand)
    (hu : mget s.users sender = some user)
    (hh : mget s.hands hand_id = some hand)
    (hbal : userCardCount user + openHandCards hand
      = userCardCount user1 + openHandCards hand1) :
    totalCards
      { s with
        users := mput sender user1 s.users,
        hands := mput hand_id hand1 s.hands } = totalCards s := by
  simp only [totalCards]
  have e1 := mapSum_mput_some (f := userCardCount) (v := user1) hu
  have e2 := mapSum_mput_some (f := openHandCards) (v := hand1) hh
  omega

theorem totalCards_offer_result (s : ContractState) (sender oid : String)
    (user user1 : User) (o : Offer)
    (hu : mget s.users sender = some user)
    (hfresh : mget s.offers oid = none)
    (hulen : userCardCount user = userCardCount user1 + openOfferCards o) :
    totalCards
      { s with
        users := mput sender user1 s.users,
        offers := mput oid o s.offers,
        offer_ids := s.offer_ids ++ [oid],
        offer_counter := s.offer_counter + 1 } = totalCards s := by
  simp only [totalCards]
  have e1 := mapSum_mput_some (f := userCardCount) (v := user1) hu
  have e2 := mapSum_mput_none (f := openOfferCards) (v := o) hfresh
  omega

theorem totalCards_check_result (s : ContractState) (sender hand_id : String)
    (stakes : List Stake) (inc : Bool) (claimed : Card)
    (ck1 : User) (hand1 : Hand) (checker : User) (hand : Hand)
    (hu : mget s.users sender = some checker)
    (hh : mget s.hands hand_id = some hand)
    (hck : userCardCount ck1 = userCardCount checker)
    (hh1 : openHandCards hand1 = 0) :
    totalCards
      { reward_stakers s stakes inc claimed with
        users := mput sender ck1 (reward_stakers s stakes inc claimed).users,
        hands := mput hand_id hand1
          (reward_stakers s stakes inc claimed).hands }
      ≤ totalCards s := by
  simp only [totalCards]
  have husr : mget (reward_stakers s stakes inc claimed).users sender
      = some (User.mk checker.user_id checker.bio
          (checker.balance + creditedSum sender
            (stakes.take (if inc then stakes.length else stakes.length - 1))
            claimed) checker.cards) := by
    rw [reward_stakers_users, hu]
    rfl
  have e1 := mapSum_mput_some (f := userCardCount) (v := ck1) husr
  have e1c : userCardCount (User.mk checker.user_id checker.bio
      (checker.balance + creditedSum sender
        (stakes.take (if inc then stakes.length else stakes.length - 1))
        claimed) checker.cards) = userCardCount checker := rfl
  have e2 := reward_stakers_userCards s stakes inc claimed
  have e3 : (reward_stakers s stakes inc claimed).hands = s.hands :=
    (reward_stakers_shape _ _ _ _).1
  have e5 : (reward_stakers s stakes inc claimed).offers = s.offers :=
    (reward_stakers_shape _ _ _ _).2.1
  rw [e3, e5]
  have e4 := mapSum_mput_some (f := openHandCards) (v := hand1) hh
  omega

theorem totalCards_sameusers_mput (s : ContractState) (k : String)
    (u1 u0 : User) (hu : mget s.users k = some u0)
    (hcu : userCardCount u1 = userCardCount u0) :
    totalCards { s with users := mput k u1 s.users } = totalCards s := by
  simp only [totalCards]
  have e1 := mapSum_mput_some (f := userCardCount) (v := u1) hu
  omega

theorem totalCards_bid_result (sr : ContractState) (sender offer_id : String)
    (u1 u0 : User) (o1 o0 : Offer)
    (hu : mget sr.users sender = some u0)
    (ho : mget sr.offers offer_id = some o0)
    (hcu : userCardCount u1 = userCardCount u0)
    (hoo : openOfferCards o1 = openOfferCards o0) :
    totalCards
      { sr with
        users := mput sender u1 sr.users,
        offers := mput offer_id o1 sr.offers } = totalCards sr := by
  simp only [totalCards]
  have e1 := mapSum_mput_some (f := userCardCount) (v := u1) hu
  have e2 := mapSum_mput_some (f := openOfferCards) (v := o1) ho
  omega

theorem totalCards_resolve_bid_result (s : ContractState)
    (sender bi offer_id : String) (bidder creator bidder1 creator1 : User)
    (o o1 : Offer) (hne : sender ≠ bi)
    (hbd : mget s.users bi = some bidder)
    (hcr : mget s.users sender = some creator)
    (ho : mget s.offers offer_id = some o)
    (hb1 : userCardCount bidder1 = userCardCount bidder + o.cards.length)
    (hc1 : userCardCount creator1 = userCardCount creator)
    (ho1 : openOfferCards o1 = 0)
    (hoo : openOfferCards o = o.cards.length) :
    totalCards
      { s with
        users := mput sender creator1 (mput bi bidder1 s.users),
        offers := mput offer_id o1 s.offers } = totalCards s := by
  simp only [totalCards]
  have e1 := mapSum_mput_some (f := userCardCount) (v := bidder1) hbd
  have e2 : mget (mput bi bidder1 s.users) sender = some creator := by
    rw [mget_mput_ne _ _ hne]
    exact hcr
  have e3 := mapSum_mput_some (f := userCardCount) (v := creator1) e2
  have e4 := mapSum_mput_some (f := openOfferCards) (v := o1) ho
  omega

theorem totalCards_resolve_nobid_result (s : ContractState)
    (sender offer_id : String) (creator creator1 : User) (o o1 : Offer)
    (hcr : mget s.users sender = some creator)
    (ho : mget s.offers offer_id = some o)
    (hc1 : userCardCount creator1 = userCardCount creator + o.cards.length)
    (ho1 : openOfferCards o1 = 0)
    (hoo : openOfferCards o = o.cards.length) :
    totalCards
      { s with
        users := mput sender creator1 s.users,
        offers := mput offer_id o1 s.offers } = totalCards s := by
  simp only [totalCards]
  have e1 := mapSum_mput_some (f := userCardCount) (v := creator1) hcr
  have e2 := mapSum_mput_some (f := openOfferCards) (v := o1) ho
  omega

theorem totalCards_buy (s : ContractState) (sender : String) (amount : ℚ)
    (seed : ℕ) :
    totalCards s ≤ totalCards (applyOp s (.buyCards sender amount seed)) := by
  simp only [applyOp, buy_cards]
  cases hu : mget s.users sender with
  | none => exact le_refl _
  | some user =>
    dsimp only
    by_cases hsp : (⌊amount⌋ : ℤ) ≤ 0
    · rw [if_pos hsp]
    · rw [if_neg hsp]
      by_cases hbal : user.balance < (⌊amount⌋ : ℚ)
      · rw [if_pos hbal]
      · rw [if_neg hbal]
        dsimp only
        have h := mapSum_mput_some (f := userCardCount) (v := User.mk user.user_id user.bio (user.balance - (⌊amount⌋ : ℚ)) (user.cards ++ get_random_cards seed (min (⌊amount⌋).toNat (2 ^ 32 - 1)))) hu
        simp only [totalCards, userCardCount] at h ⊢
        simp only [List.length_append] at h
        omega

theorem totalCards_applyOp (s : ContractState) (op : Op) (hg : GoodState s) :
    (op.isBuyCards = false → op.isCheck = false →
      totalCards (applyOp s op) = totalCards s)
    ∧ (op.isCheck = true → totalCards (applyOp s op) ≤ totalCards s)
    ∧ (op.isBuyCards = true → totalCards s ≤ totalCards (applyOp s op)) := by
  cases op with
  | registerUser sender bio =>
    exact ⟨fun _ _ => totalCards_register s sender bio,
      fun h => by simp [Op.isCheck] at h,
      fun h => by simp [Op.isBuyCards] at h⟩
  | depositOp sender amount =>
    exact ⟨fun _ _ => totalCards_deposit s sender amount,
      fun h => by simp [Op.isCheck] at h,
      fun h => by simp [Op.isBuyCards] at h⟩
  | withdrawBid sender offer_id =>
    exact ⟨fun _ _ => totalCards_withdraw s sender offer_id,
      fun h => by simp [Op.isCheck] at h,
      fun h => by simp [Op.isBuyCards] at h⟩
  | buyCards sender amount seed =>
    exact ⟨fun h _ => by simp [Op.isBuyCards] at h,
      fun h => by simp [Op.isCheck] at h,
      fun _ => totalCards_buy s sender amount seed⟩
  | startHand sender claim cards =>
    refine ⟨fun _ _ => ?_, fun h => by simp [Op.isCheck] at h,
      fun h => by simp [Op.isBuyCards] at h⟩
    simp only [applyOp, start_hand]
    cases hu : mget s.users sender with
    | none => rfl
    | some user =>
      dsimp only
      cases hrm : remove_cards_from_inventory user.cards cards with
      | error e => rfl
      | ok inv =>
        dsimp only
        refine totalCards_start_result s sender _ user _ _ hu
          (mget_repr_fresh (fun k v h => hg.1 k v h)) ?_ ?_
        · have := remove_ok_length hrm
          simp only [userCardCount, handCards, List.map_cons, List.map_nil,
            List.sum_cons, List.sum_nil]
          omega
        · simp [openHandCards]
  | stakeOp sender hand_id cards =>
    refine ⟨fun _ _ => ?_, fun h => by simp [Op.isCheck] at h,
      fun h => by simp [Op.isBuyCards] at h⟩
    simp only [applyOp, stake]
    cases hu : mget s.users sender with
    | none => rfl
    | some user =>
      dsimp only
      cases hh : mget s.hands hand_id with
      | none => rfl
      | some hand =>
        dsimp only
        by_cases hres : hand.is_resolved = true
        · rw [if_pos hres]
        · rw [if_neg hres]
          rw [Bool.not_eq_true] at hres
          cases hrm : remove_cards_from_inventory user.cards cards with
          | error e => rfl
          | ok inv =>
            dsimp only
            refine totalCards_stake_result s sender hand_id user _ hand _
              hu hh ?_
            have := remove_ok_length hrm
            simp [userCardCount, openHandCards, hres, handCards]
            omega
  | offerOp sender cards amount =>
    refine ⟨fun _ _ => ?_, fun h => by simp [Op.isCheck] at h,
      fun h => by simp [Op.isBuyCards] at h⟩
    simp only [applyOp, offer]
    cases hu : mget s.users sender with
    | none => rfl
    | some user =>
      dsimp only
      cases hrm : remove_cards_from_inventory user.cards cards with
      | error e => rfl
      | ok inv =>
        dsimp only
        refine totalCards_offer_result s sender _ user _ _ hu
          (mget_repr_fresh (fun k v h => hg.2.1 k v h)) ?_
        have := remove_ok_length hrm
        simp [userCardCount, openOfferCards]
        omega
  | checkOp sender hand_id =>
    refine ⟨fun _ h => by simp [Op.isCheck] at h, fun _ => ?_,
      fun h => by simp [Op.isBuyCards] at h⟩
    simp only [applyOp, check]
    cases hu : mget s.users sender with
    | none => exact le_refl _
    | some checker =>
      dsimp only
      cases hh : mget s.hands hand_id with
      | none => exact le_refl _
      | some hand =>
        dsimp only
        by_cases hres : hand.is_resolved = true
        · rw [if_pos hres]
        · rw [if_neg hres]
          cases hl : hand.stakes.getLast? with
          | none => exact le_refl _
          | some last =>
            dsimp only
            exact totalCards_check_result s sender hand_id hand.stakes _
              hand.claimed_card _ _ checker hand hu hh rfl rfl
  | bidOp sender offer_id amount =>
    refine ⟨fun _ _ => ?_, fun h => by simp [Op.isCheck] at h,
      fun h => by simp [Op.isBuyCards] at h⟩
    simp only [applyOp, bid, bidBody]
    cases hu : mget s.users sender with
    | none => rfl
    | some bidder =>
      dsimp only
      cases ho : mget s.offers offer_id with
      | none => rfl
      | some o =>
        dsimp only
        by_cases hres : o.is_resolved = true
        · rw [if_pos hres]
        · rw [if_neg hres]
          by_cases hc : o.creator_id = sender
          · rw [if_pos hc]
          · rw [if_neg hc]
            by_cases hm : amount ≤ o.current_bid.getD o.initial_price
            · rw [if_pos hm]
            · rw [if_neg hm]
              cases hcb : o.current_bid with
              | none =>
                dsimp only
                by_cases hbal : bidder.balance < amount
                · rw [if_pos hbal]
                · rw [if_neg hbal]
                  exact totalCards_bid_result s sender offer_id _ bidder _ o
                    hu ho rfl rfl
              | some prevAmt =>
                cases hcbi : o.current_bidder_id with
                | none =>
                  dsimp only
                  by_cases hbal : bidder.balance < amount
                  · rw [if_pos hbal]
                  · rw [if_neg hbal]
                    exact totalCards_bid_result s sender offer_id _ bidder _
                      o hu ho rfl rfl
                | some prevId =>
                  dsimp only
                  by_cases hp : prevId = sender
                  · rw [if_pos hp]
                    dsimp only
                    by_cases hbal : bidder.balance + prevAmt < amount
                    · rw [if_pos hbal]
                    · rw [if_neg hbal]
                      exact totalCards_bid_result s sender offer_id _
                        bidder _ o hu ho rfl rfl
                  · rw [if_neg hp]
                    cases hprev : mget s.users prevId with
                    | none =>
                      dsimp only
                      by_cases hbal : bidder.balance < amount
                      · rw [if_pos hbal]
                      · rw [if_neg hbal]
                        exact totalCards_bid_result s sender offer_id _
                          bidder _ o hu ho rfl rfl
                    | some prev =>
                      dsimp only
                      by_cases hbal : bidder.balance < amount
                      · rw [if_pos hbal]
                      · rw [if_neg hbal]
                        have hsr : mget (mput prevId (User.mk prev.user_id prev.bio (prev.balance + prevAmt) prev.cards) s.users) sender = some bidder := by
                          rw [mget_mput_ne _ _ (fun h => hp h.symm)]
                          exact hu
                        have t1 := totalCards_bid_result { s with users := mput prevId (User.mk prev.user_id prev.bio (prev.balance + prevAmt) prev.cards) s.users } sender offer_id (User.mk bidder.user_id bidder.bio (bidder.balance - amount) bidder.cards) bidder (Offer.mk o.offer_id o.creator_id o.cards o.initial_price (some amount) (some sender) o.is_resolved) o hsr ho rfl rfl
                        have t2 := totalCards_sameusers_mput s prevId
                          (User.mk prev.user_id prev.bio
                            (prev.balance + prevAmt) prev.cards) prev hprev rfl
                        exact t1.trans t2
  | resolveOp sender offer_id =>
    refine ⟨fun _ _ => ?_, fun h => by simp [Op.isCheck] at h,
      fun h => by simp [Op.isBuyCards] at h⟩
    simp only [applyOp, resolve]
    cases ho : mget s.offers offer_id with
    | none => rfl
    | some o =>
      dsimp only
      by_cases hc : o.creator_id ≠ sender
      · rw [if_pos hc]
      · rw [if_neg hc]
        have hc2 : o.creator_id = sender := not_not.mp hc
        by_cases hres : o.is_resolved = true
        · rw [if_pos hres]
        · rw [if_neg hres]
          rw [Bool.not_eq_true] at hres
          cases hcb : o.current_bid with
          | none =>
            cases hcr : mget s.users sender with
            | none =>
              exfalso
              have h3 := hg.2.2.1 _ o ho
              rw [hc2, hcr] at h3
              simp at h3
            | some creator =>
              refine totalCards_resolve_nobid_result s sender offer_id
                creator _ o _ hcr ho ?_ ?_ ?_
              · simp [userCardCount]
              · simp [openOfferCards]
              · simp [openOfferCards, hres]
          | some ba =>
            cases hcbi : o.current_bidder_id with
            | none =>
              cases hcr : mget s.users sender with
              | none =>
                exfalso
                have h3 := hg.2.2.1 _ o ho
                rw [hc2, hcr] at h3
                simp at h3
              | some creator =>
                refine totalCards_resolve_nobid_result s sender offer_id
                  creator _ o _ hcr ho ?_ ?_ ?_
                · simp [userCardCount]
                · simp [openOfferCards]
                · simp [openOfferCards, hres]
            | some bi =>
              dsimp only
              cases hbd : mget s.users bi with
              | none => rfl
              | some bidder =>
                dsimp only
                cases hcr : mget s.users sender with
                | none => rfl
                | some creator =>
                  have hne : sender ≠ bi := by
                    have h4 := hg.2.2.2.1 _ o ho
                    rw [hcbi, hc2] at h4
                    intro hEq
                    exact h4 (by rw [hEq])
                  refine totalCards_resolve_bid_result s sender bi offer_id
                    bidder creator _ _ o _ hne hbd hcr ho ?_ ?_ ?_ ?_
                  · simp [userCardCount]
                  · simp [userCardCount]
                  · simp [openOfferCards]
                  · simp [openOfferCards, hres]

/-- C2 counterexample: after register, buy one card, start a hand staking it,
the counted total (inventories + open hand stakes + open offer escrows) is 1;
the following `check` — which is not `buy_cards` — drops it to 0: the staked
card of the resolved hand is destroyed (converted to balance), not returned. -/
theorem card_conservation_cex :
    totalCards (runOps initState (c2Ops.take 3)) = 1
    ∧ runOps initState c2Ops
        = applyOp (runOps initState (c2Ops.take 3)) (.checkOp "A" "1")
    ∧ totalCards (runOps initState c2Ops) = 0
    ∧ Op.isBuyCards (.checkOp "A" "1") = false := by
  refine ⟨by decide, by rfl, by decide, by decide⟩

/-- C2 (amended): along any operation sequence from the initial state, the
total card count over user inventories, unresolved hand stakes and unresolved
offer escrows is unchanged by every operation except `buy_cards`, which only
mints (never decreases the total), and `check`, which only destroys (never
increases the total — it removes the resolved hand's staked cards from the
counted total without returning them anywhere). -/
theorem card_conservation_amended (ops : List Op) (op : Op) :
    (op.isBuyCards = false → op.isCheck = false →
      totalCards (applyOp (runOps initState ops) op)
        = totalCards (runOps initState ops))
    ∧ (op.isCheck = true →
        totalCards (applyOp (runOps initState ops) op)
          ≤ totalCards (runOps initState ops))
    ∧ (op.isBuyCards = true →
        totalCards (runOps initState ops)
          ≤ totalCards (applyOp (runOps initState ops) op)) :=
  totalCards_applyOp _ op (GoodState_runOps ops)

/-- Witness for the amended C2: a `register_user` step on the initial state
preserves the counted total. -/
theorem card_conservation_amended_witness :
    totalCards (applyOp (runOps initState []) (.registerUser "A" ""))
      = totalCards (runOps initState []) :=
  (card_conservation_amended [] (.registerUser "A" "")).1 rfl rfl

/-- C7 (amended): for a registered caller, `buy_cards` with `amount ≤ 0`
returns the empty list and changes nothing; with `1 ≤ ⌊amount⌋` and balance
below `⌊amount⌋` it fails with the insufficient-balance error and changes
nothing; with `1 ≤ ⌊amount⌋ ≤ u32::MAX = 4294967295` and sufficient balance
it debits exactly `⌊amount⌋`, appends exactly `⌊amount⌋` deterministically
drawn cards to the inventory and returns them. Beyond `u32::MAX` the `as u32`
cast saturates and fewer cards are drawn (see the counterexample). -/
theorem buy_cards_amended (s : ContractState) (sender : String) (amount : ℚ)
    (seed : ℕ) (user : User) (hu : mget s.users sender = some user) :
    (amount ≤ 0 → buy_cards sender amount seed s = .ok ([], s))
    ∧ (1 ≤ ⌊amount⌋ → user.balance < (⌊amount⌋ : ℚ) →
        buy_cards sender amount seed s = .error "insufficient balance")
    ∧ (1 ≤ ⌊amount⌋ → ⌊amount⌋ ≤ 4294967295 →
        (⌊amount⌋ : ℚ) ≤ user.balance →
        buy_cards sender amount seed s
          = .ok (get_random_cards seed (⌊amount⌋).toNat,
              { s with users := mput sender (User.mk user.user_id user.bio (user.balance - (⌊amount⌋ : ℚ)) (user.cards ++ get_random_cards seed (⌊amount⌋).toNat)) s.users })
        ∧ (get_random_cards seed (⌊amount⌋).toNat).length
            = (⌊amount⌋).toNat) := by
  refine ⟨?_, ?_, ?_⟩
  · intro ha
    have hsp : (⌊amount⌋ : ℤ) ≤ 0 := by
      have h0 : (⌊amount⌋ : ℤ) ≤ ⌊(0 : ℚ)⌋ := Int.floor_le_floor ha
      simpa using h0
    simp [buy_cards, hu, hsp]
  · intro h1 hbal
    have hsp : ¬ ((⌊amount⌋ : ℤ) ≤ 0) := by omega
    simp [buy_cards, hu, hsp, hbal]
  · intro h1 h2 hbal
    have hsp : ¬ ((⌊amount⌋ : ℤ) ≤ 0) := by omega
    have hnb : ¬ (user.balance < (⌊amount⌋ : ℚ)) := not_lt.mpr hbal
    have hmin : (⌊amount⌋).toNat ⊓ 4294967295 = (⌊amount⌋).toNat := by
      omega
    refine ⟨?_, get_random_cards_length _ _⟩
    simp [buy_cards, hu, hsp, hnb, hmin]

/-- C7 counterexample: user `A` holds balance `2^32 = 4294967296`; calling
`buy_cards(4294967296)` debits the full `⌊amount⌋` but the `spend as u32`
saturating cast draws only `u32::MAX = 4294967295` cards, one fewer than the
claimed `⌊amount⌋`. -/
theorem buy_cards_saturation_cex :
    (buy_cards "A" 4294967296 0 c7State).map (fun p => p.1.length)
      = .ok 4294967295
    ∧ (4294967295 : ℕ) ≠ 4294967296 := by
  constructor
  · have hfl : (⌊(4294967296 : ℚ)⌋ : ℤ) = 4294967296 := by
      rw [show (4294967296 : ℚ) = ((4294967296 : ℤ) : ℚ) by norm_num,
        Int.floor_intCast]
    have hsp : ¬ ((⌊(4294967296 : ℚ)⌋ : ℤ) ≤ 0) := by omega
    have hnb : ¬ ((4294967296 : ℚ) < ((⌊(4294967296 : ℚ)⌋ : ℤ) : ℚ)) := by
      rw [hfl]
      norm_num
    have hmin : min (⌊(4294967296 : ℚ)⌋).toNat (2 ^ 32 - 1) = 4294967295 := by
      rw [hfl]
      norm_num
    simp [buy_cards, c7State, initState, mget, hsp, hnb, hmin, Except.map,
      get_random_cards_length]
  · decide

/-- Witness for the amended C7: `A` (balance 100) buys with amount 2 at seed
0 and receives exactly `⌊2⌋` cards, with the balance debited by `⌊2⌋`. -/
theorem buy_cards_amended_witness :
    buy_cards "A" 2 0 c1State
      = .ok (get_random_cards 0 (⌊(2 : ℚ)⌋).toNat,
          { c1State with users := mput "A" (User.mk "A" "" (100 - ((⌊(2 : ℚ)⌋ : ℤ) : ℚ)) ([] ++ get_random_cards 0 (⌊(2 : ℚ)⌋).toNat)) c1State.users })
    ∧ (get_random_cards 0 (⌊(2 : ℚ)⌋).toNat).length = (⌊(2 : ℚ)⌋).toNat := by
  have hf2 : (⌊(2 : ℚ)⌋ : ℤ) = 2 := by
    rw [show (2 : ℚ) = ((2 : ℤ) : ℚ) by norm_num, Int.floor_intCast]
  exact (buy_cards_amended c1State "A" 2 0 (User.mk "A" "" 100 []) rfl).2.2
    (by rw [hf2]; norm_num) (by rw [hf2]; norm_num) (by rw [hf2]; norm_num)

end Escalate
